import Mathlib

/-!
Verification development for the fle-server repository.

The Go sources are shallowly embedded: pure helpers become Lean
functions, stateful components (session manager, JSON-RPC router,
websocket hub) become explicit state-passing functions, and the
single-threaded hub/manager event processing is modelled as a fold over
an operation list.  Go `time.Time` values are modelled as integers
(nanosecond timestamps), `time.Duration` as an integer, and buffered Go
channels as a capacity plus a list of buffered messages plus a closed
flag, with Go's `select` semantics made explicit.  Byte-level JSON
encoding/decoding is abstracted: a wire input is either a parse failure
or a parsed `Request`, and serialisation of a `Response` is modelled as
the identity (every value the server builds is serialisable).
String helpers (`strings.ToLower`, `strings.TrimSpace`) are modelled
over the ASCII range, which covers every string the repository
manipulates.
-/

namespace FLE

/-! ## Go string helpers (ASCII fragment)

`isGoSpace` models `unicode.IsSpace` on the ASCII range (space, tab,
newline, vertical tab, form feed, carriage return), which is the set of
whitespace characters relevant to the repository's session codes. -/
def isGoSpace (c : Char) : Bool :=
  c = ' ' || c = '\t' || c = '\n' || c = (Char.ofNat 11) || c = (Char.ofNat 12) || c = '\r'

/-- `strings.ToLower` on one character (ASCII fragment). -/
def charToLower (c : Char) : Char :=
  if 'A' ≤ c ∧ c ≤ 'Z' then Char.ofNat (c.toNat + 32) else c

/-- `strings.ToLower` (ASCII fragment), on the character list of a string. -/
def goToLowerL (l : List Char) : List Char := l.map charToLower

/-- `strings.TrimSpace`, on the character list of a string: drop leading and
trailing whitespace. -/
def goTrimL (l : List Char) : List Char :=
  ((l.dropWhile isGoSpace).reverse.dropWhile isGoSpace).reverse

def goToLower (s : String) : String := ⟨goToLowerL s.data⟩

def goTrim (s : String) : String := ⟨goTrimL s.data⟩

/-- `strings.Split(s, "-")`: split on every dash; an empty input gives one
empty segment. -/
def splitDashL : List Char → List (List Char)
  | [] => [[]]
  | c :: rest =>
    let r := splitDashL rest
    if c = '-' then [] :: r
    else
      match r with
      | t :: ts => (c :: t) :: ts
      | [] => [[c]]

/-- Decimal value of a digit list (most significant first). -/
def natOfDigits (l : List Char) : Nat :=
  l.foldl (fun n c => 10 * n + (c.toNat - 48)) 0

/-- Model of `fmt.Sscanf(s, "%d", &number)`: skip leading whitespace, accept
an optional sign, then read a nonempty run of decimal digits; characters after
the digits are left unconsumed (Sscanf does not require the whole string to be
consumed).  Returns the scanned integer, or `none` when no integer could be
scanned (in Go: `n != 1 || err != nil`). -/
def goScanIntL (l : List Char) : Option Int :=
  let l₁ := l.dropWhile isGoSpace
  match l₁ with
  | '+' :: rest =>
    let ds := rest.takeWhile Char.isDigit
    if ds.isEmpty then none else some (natOfDigits ds : Int)
  | '-' :: rest =>
    let ds := rest.takeWhile Char.isDigit
    if ds.isEmpty then none else some (-(natOfDigits ds : Int))
  | _ =>
    let ds := l₁.takeWhile Char.isDigit
    if ds.isEmpty then none else some (natOfDigits ds : Int)

namespace session

/-- `Generator.NormalizeCode` (generator.go): lowercase the trimmed code. -/
def NormalizeCode (code : String) : String := goToLower (goTrim code)

/-- Body of `Generator.IsValidFormat` after normalization: split on dashes,
require exactly three non-blank segments, and require the last segment to be
at most two characters and to scan (`fmt.Sscanf "%d"`) as an integer in
[1,99]. -/
def validFormatParts (parts : List (List Char)) : Bool :=
  match parts with
  | [p₁, p₂, p₃] =>
    if goTrimL p₁ = [] || goTrimL p₂ = [] || goTrimL p₃ = [] then false
    else if p₃.length = 0 || p₃.length > 2 then false
    else
      match goScanIntL p₃ with
      | none => false
      | some number => if number < 1 || number > 99 then false else true
  | _ => false

/-- `Generator.IsValidFormat` (generator.go): case-insensitive format check
for session codes. -/
def IsValidFormat (code : String) : Bool :=
  if code = "" then false
  else validFormatParts (splitDashL (goToLower (goTrim code)).data)

end session

namespace jsonrpc

/-- Body of `Validator.validateSessionCode` after normalization; textually a
mirror of `Generator.IsValidFormat` except for the final range check being
written `number >= 1 && number <= 99`. -/
def sessionCodeParts (parts : List (List Char)) : Bool :=
  match parts with
  | [p₁, p₂, p₃] =>
    if goTrimL p₁ = [] || goTrimL p₂ = [] || goTrimL p₃ = [] then false
    else if p₃.length = 0 || p₃.length > 2 then false
    else
      match goScanIntL p₃ with
      | none => false
      | some number => decide (number ≥ 1) && decide (number ≤ 99)
  | _ => false

/-- `Validator.validateSessionCode` (validator.go): the custom `sessioncode`
validation rule. -/
def validateSessionCode (code : String) : Bool :=
  if code = "" then false
  else sessionCodeParts (splitDashL (goToLower (goTrim code)).data)

end jsonrpc

/-! ## Claim C5: session-code validation -/
/-- Acceptance condition exactly as claim C5 words it: after trimming and
lowercasing, exactly three dash-separated non-empty segments, the last of
which parses in full as an integer in [1,99]. -/
def claimedValidFormat (code : String) : Bool :=
  let segs := splitDashL (goToLower (goTrim code)).data
  segs.length == 3 &&
  segs.all (fun seg => !seg.isEmpty) &&
  (match segs.getLast? with
   | some last =>
     (!last.isEmpty) && last.all Char.isDigit &&
       decide (1 ≤ natOfDigits last) && decide (natOfDigits last ≤ 99)
   | none => false)

/-- Acceptance condition of claim C5 as amended: after trimming and
lowercasing, exactly three dash-separated non-blank segments, the last of
which is at most two characters and scans as `fmt.Sscanf "%d"` scans it
(leading whitespace and an optional sign allowed, trailing characters
ignored) to an integer in [1,99]. -/
def amendedValidFormat (code : String) : Bool :=
  let segs := splitDashL (goToLower (goTrim code)).data
  segs.length == 3 &&
  segs.all (fun seg => !(goTrimL seg).isEmpty) &&
  (match segs.getLast? with
   | some last =>
     decide (last.length ≤ 2) &&
       (match goScanIntL last with
        | some n => decide (1 ≤ n) && decide (n ≤ 99)
        | none => false)
   | none => false)

/-! ## Session manager (manager.go)

The manager's store is modelled as an association list with Go-map
semantics (`lookupKey`, `eraseKey`, `upsert`); `time.Now()` is passed in
explicitly as an integer, and the code generator plus the caller's
context are passed to `CreateSession` as an attempt-indexed candidate
stream and an attempt-indexed cancellation flag. -/
def lookupKey {α : Type} (k : String) : List (String × α) → Option α
  | [] => none
  | (k', v) :: rest => if k' = k then some v else lookupKey k rest

def eraseKey {α : Type} (k : String) (l : List (String × α)) : List (String × α) :=
  l.filter (fun p => p.1 != k)

/-- Go-map assignment `m[k] = v`. -/
def upsert {α : Type} (k : String) (v : α) (l : List (String × α)) : List (String × α) :=
  (k, v) :: eraseKey k l

namespace session

/-- `Session` (types.go): data values are opaque to the manager, which only
copies them; they are modelled as strings. -/
structure Session where
  code : String
  createdAt : Int
  lastAccessed : Int
  data : List (String × String)
deriving DecidableEq

/-- Sentinel errors of the session package (types.go), plus the wrapped
context-cancellation error returned by `CreateSession`. -/
inductive SessionError where
  | invalidSessionCode
  | sessionNotFound
  | sessionExpired
  | codeGenerationFailed
  | creationCancelled
deriving DecidableEq

/-- `Manager` state: the sessions store and the manager-level
`SessionTimeout`.  The locks, cleanup goroutine and channels do not appear:
operations are applied one at a time. -/
structure ManagerState where
  sessions : List (String × Session)
  sessionTimeout : Int
deriving DecidableEq

/-- Per-call `SessionOptions` (`MaxRetries`, `InitialData`). -/
structure COpts where
  maxRetries : Nat
  initialData : List (String × String)

/-- `Manager.isExpired`: `time.Since(session.LastAccessed) > SessionTimeout`. -/
def isExpired (timeout : Int) (now : Int) (s : Session) : Bool :=
  decide (now - s.lastAccessed > timeout)

/-- `Manager.GetSession` (manager.go). -/
def GetSession (st : ManagerState) (now : Int) (code : String) :
    Except SessionError Session × ManagerState :=
  if code = "" then (.error .invalidSessionCode, st)
  else if ¬ IsValidFormat code then (.error .invalidSessionCode, st)
  else
    match lookupKey (NormalizeCode code) st.sessions with
    | none => (.error .sessionNotFound, st)
    | some sess =>
      if isExpired st.sessionTimeout now sess then
        (.error .sessionExpired,
          { st with sessions := eraseKey (NormalizeCode code) st.sessions })
      else
        (.ok { sess with lastAccessed := now },
          { st with sessions :=
                      upsert (NormalizeCode code)
                        { sess with lastAccessed := now } st.sessions })

/-- `GetSession` as claim C6 words it: reject empty or malformed codes;
normalize; miss is not-found; a hit older than the timeout is deleted and
reported expired; otherwise `lastAccessed` is bumped to `now` and the session
returned. -/
def specGetSession (st : ManagerState) (now : Int) (code : String) :
    Except SessionError Session × ManagerState :=
  if code = "" ∨ IsValidFormat code = false then (.error .invalidSessionCode, st)
  else
    match lookupKey (NormalizeCode code) st.sessions with
    | none => (.error .sessionNotFound, st)
    | some sess =>
      if now - sess.lastAccessed > st.sessionTimeout then
        (.error .sessionExpired,
          { st with sessions := eraseKey (NormalizeCode code) st.sessions })
      else
        (.ok { sess with lastAccessed := now },
          { st with sessions :=
                      upsert (NormalizeCode code)
                        { sess with lastAccessed := now } st.sessions })

/-- `Manager.DeleteSession` (manager.go). -/
def DeleteSession (st : ManagerState) (code : String) : Bool × ManagerState :=
  if code = "" then (false, st)
  else if ¬ IsValidFormat code then (false, st)
  else
    match lookupKey (NormalizeCode code) st.sessions with
    | some _ => (true, { st with sessions := eraseKey (NormalizeCode code) st.sessions })
    | none => (false, st)

/-- Go's `for k, v := range data { session.Data[k] = v }`. -/
def mergeData (old patch : List (String × String)) : List (String × String) :=
  patch.foldl (fun acc kv => upsert kv.1 kv.2 acc) old

/-- `Manager.UpdateSessionData` (manager.go); unlike `GetSession` it does not
check the code's format, only that it is nonempty. -/
def UpdateSessionData (st : ManagerState) (now : Int) (code : String)
    (data : List (String × String)) : Except SessionError Unit × ManagerState :=
  if code = "" then (.error .invalidSessionCode, st)
  else
    match lookupKey (NormalizeCode code) st.sessions with
    | none => (.error .sessionNotFound, st)
    | some sess =>
      if isExpired st.sessionTimeout now sess then
        (.error .sessionExpired,
          { st with sessions := eraseKey (NormalizeCode code) st.sessions })
      else
        (.ok (),
          { st with sessions :=
                      upsert (NormalizeCode code)
                        { sess with data := mergeData sess.data data, lastAccessed := now }
                        st.sessions })

/-- `Manager.Cleanup` (manager.go): full sweep removing the expired
sessions, returning how many were removed. -/
def Cleanup (st : ManagerState) (now : Int) : Nat × ManagerState :=
  (st.sessions.length -
      (st.sessions.filter (fun p => !(isExpired st.sessionTimeout now p.2))).length,
    { st with sessions :=
                st.sessions.filter (fun p => !(isExpired st.sessionTimeout now p.2)) })

/-- Outcome of `CreateSession`'s generation loop. -/
inductive CreateLoopOut where
  | cancelledOut
  | broke (code : String)
  | exhausted (code : String) (collision : Bool)
deriving DecidableEq

/-- The retry loop of `Manager.CreateSession`: `attempt` is the loop counter,
`fuel` the remaining iterations (`MaxRetries + 1` at entry), `code` and
`collision` the mutable loop variables.  An invalid candidate `continue`s, a
colliding candidate sets `collision` and checks the caller's cancellation
token, and a fresh candidate breaks with the normalized code. -/
def createLoop (sessions : List (String × Session)) (cands : Nat → String)
    (cancelled : Nat → Bool) : Nat → Nat → String → Bool → CreateLoopOut
  | _, 0, code, collision => .exhausted code collision
  | attempt, fuel+1, _, collision =>
    if ¬ IsValidFormat (cands attempt) then
      createLoop sessions cands cancelled (attempt+1) fuel (cands attempt) collision
    else
      if (lookupKey (NormalizeCode (cands attempt)) sessions).isSome then
        if cancelled attempt then .cancelledOut
        else createLoop sessions cands cancelled (attempt+1) fuel (cands attempt) true
      else .broke (NormalizeCode (cands attempt))

/-- `Manager.CreateSession` (manager.go): run the retry loop; a surviving
collision is `CodeGenerationFailed`; otherwise the final `code` variable —
the normalized candidate on a break, or the last raw candidate when the loop
exhausted without any valid candidate — is stored with fresh timestamps and a
copy of `InitialData`. -/
def CreateSession (st : ManagerState) (now : Int) (opts : COpts)
    (cands : Nat → String) (cancelled : Nat → Bool) :
    Except SessionError Session × ManagerState :=
  match createLoop st.sessions cands cancelled 0 (opts.maxRetries + 1) "" false with
  | .cancelledOut => (.error .creationCancelled, st)
  | .exhausted _ true => (.error .codeGenerationFailed, st)
  | .exhausted code false =>
    (.ok { code := code, createdAt := now, lastAccessed := now, data := opts.initialData },
      { st with sessions :=
                  upsert code
                    { code := code, createdAt := now, lastAccessed := now,
                      data := opts.initialData } st.sessions })
  | .broke code =>
    (.ok { code := code, createdAt := now, lastAccessed := now, data := opts.initialData },
      { st with sessions :=
                  upsert code
                    { code := code, createdAt := now, lastAccessed := now,
                      data := opts.initialData } st.sessions })

/-! ## Claim C10: keys of the session store -/
/-- One serialized operation against the session manager. -/
inductive MgrOp where
  | create (now : Int) (opts : COpts) (cands : Nat → String) (cancelled : Nat → Bool)
  | get (now : Int) (code : String)
  | update (now : Int) (code : String) (data : List (String × String))
  | del (code : String)
  | cleanup (now : Int)

/-- State reached after one manager operation. -/
def applyOp (st : ManagerState) : MgrOp → ManagerState
  | .create now opts cands cancelled => (CreateSession st now opts cands cancelled).2
  | .get now code => (GetSession st now code).2
  | .update now code data => (UpdateSessionData st now code data).2
  | .del code => (DeleteSession st code).2
  | .cleanup now => (Cleanup st now).2

/-- State reached after a sequence of manager operations. -/
def runOps (st : ManagerState) (ops : List MgrOp) : ManagerState :=
  ops.foldl applyOp st

/-- The store-key invariant of claim C10: every key is format-valid, is its
own normalization, and is the `Code` of the session stored under it. -/
def KeyInvariant (st : ManagerState) : Prop :=
  ∀ p ∈ st.sessions,
    IsValidFormat p.1 = true ∧ NormalizeCode p.1 = p.1 ∧ p.2.code = p.1

/-- A `create` operation is well-supplied when at least one of its candidate
codes within the retry budget passes the format check; other operations are
unconstrained. -/
def goodOp : MgrOp → Prop
  | .create _ opts cands _ => ∃ i, i ≤ opts.maxRetries ∧ IsValidFormat (cands i) = true
  | _ => True

end session

namespace jsonrpc

/-! ## JSON-RPC validation engine and router (validator.go, types.go, router.go)

The go-playground validator is modelled by `goStructErrors`: rules of a
field are evaluated left to right and stop at the first violation of that
field, fields are evaluated in declaration order, and the repository's
`Validate` wrapper then keeps only the first reported error (fast-fail).
JSON values are a small concrete type; method params schemas are modelled
as the composition of `json.Unmarshal` into the schema struct (which can
fail) and validation of the resulting field instances. -/
/-- JSON values, as far as the router observes them. -/
inductive Json where
  | null
  | bool (b : Bool)
  | num (n : Int)
  | str (s : String)
  | arr (xs : List Json)
  | obj (fields : List (String × Json))

/-- A Go value carried by a validated struct field. -/
inductive GoValue where
  | str (s : String)
  | int (n : Int)
deriving DecidableEq

/-- The validation rules of the repository's schemas (validator.go): the
built-in `required`, `eq`, `min`, `max` and the custom `sessioncode` and
`jsonrpcversion` tags. -/
inductive VRule where
  | required
  | eq (param : String)
  | min (param : Nat)
  | max (param : Nat)
  | sessioncode
  | jsonrpcversion
deriving DecidableEq

def ruleTag : VRule → String
  | .required => "required"
  | .eq _ => "eq"
  | .min _ => "min"
  | .max _ => "max"
  | .sessioncode => "sessioncode"
  | .jsonrpcversion => "jsonrpcversion"

def ruleParam : VRule → String
  | .eq p => p
  | .min p => toString p
  | .max p => toString p
  | _ => ""

/-- `fmt.Sprintf("%v", value)`. -/
def goFormatValue : GoValue → String
  | .str s => s
  | .int n => toString n

/-- Rule semantics of go-playground validator on the two kinds the
repository validates: `required` means nonempty string or nonzero int,
`min`/`max` bound the rune count of a string or the value of an int. -/
def ruleHolds : VRule → GoValue → Bool
  | .required, .str s => s != ""
  | .required, .int n => n != 0
  | .eq p, .str s => s == p
  | .eq p, .int n => toString n == p
  | .min p, .str s => decide (p ≤ s.length)
  | .min p, .int n => decide ((p : Int) ≤ n)
  | .max p, .str s => decide (s.length ≤ p)
  | .max p, .int n => decide (n ≤ (p : Int))
  | .sessioncode, .str s => validateSessionCode s
  | .sessioncode, .int _ => false
  | .jsonrpcversion, .str s => s == "2.0"
  | .jsonrpcversion, .int _ => false

/-- One struct field as the validator sees it: json name, value, tag rules. -/
structure GoField where
  name : String
  value : GoValue
  rules : List VRule

/-- `ValidationError` (validator.go). -/
structure ValidationError where
  field : String
  tag : String
  value : GoValue
  param : String
  message : String
deriving DecidableEq

/-- An apostrophe, used by the validator's human-readable messages. -/
def apos : String := (Char.ofNat 39).toString

/-- `Validator.buildErrorMessage` (validator.go), for the modelled tags; Go
`len` of the formatted value is its UTF-8 byte size. -/
def buildErrorMessage (field tag param : String) (value : GoValue) : String :=
  if tag = "required" then
    "field " ++ apos ++ field ++ apos ++ " is required"
  else if tag = "eq" then
    "field " ++ apos ++ field ++ apos ++ " must equal " ++ apos ++ param ++ apos ++
      ", got " ++ apos ++ goFormatValue value ++ apos
  else if tag = "min" then
    match value with
    | .str _ =>
      "field " ++ apos ++ field ++ apos ++ " must be at least " ++ param ++
        " characters long, got " ++ toString (goFormatValue value).utf8ByteSize
    | .int _ =>
      "field " ++ apos ++ field ++ apos ++ " must be at least " ++ param ++
        ", got " ++ apos ++ goFormatValue value ++ apos
  else if tag = "max" then
    match value with
    | .str _ =>
      "field " ++ apos ++ field ++ apos ++ " must be at most " ++ param ++
        " characters long, got " ++ toString (goFormatValue value).utf8ByteSize
    | .int _ =>
      "field " ++ apos ++ field ++ apos ++ " must be at most " ++ param ++
        ", got " ++ apos ++ goFormatValue value ++ apos
  else if tag = "sessioncode" then
    "field " ++ apos ++ field ++ apos ++
      " must be a valid session code in format " ++ apos ++
      "adjective-noun-number" ++ apos ++ " (e.g., " ++ apos ++ "happy-panda-42" ++
      apos ++ "), got " ++ apos ++ goFormatValue value ++ apos
  else if tag = "jsonrpcversion" then
    "field " ++ apos ++ field ++ apos ++ " must be exactly " ++ apos ++ "2.0" ++
      apos ++ " for JSON-RPC 2.0 compliance, got " ++ apos ++ goFormatValue value ++ apos
  else
    "field " ++ apos ++ field ++ apos ++ " failed validation rule " ++ apos ++ tag ++
      apos ++ " with value " ++ apos ++ goFormatValue value ++ apos

/-- The structured error built for a violated rule of a field. -/
def mkVErr (f : GoField) (rule : VRule) : ValidationError :=
  { field := f.name
    tag := ruleTag rule
    value := f.value
    param := ruleParam rule
    message := buildErrorMessage f.name (ruleTag rule) (ruleParam rule) f.value }

/-- go-playground `validate.Struct`: for each field in order, the first
violated rule of that field, as a list of structured errors. -/
def goStructErrors (inst : List GoField) : List ValidationError :=
  inst.filterMap (fun f => (f.rules.find? (fun rule => !(ruleHolds rule f.value))).map (mkVErr f))

/-- All violated (field, rule) pairs, in field order then rule order. -/
def violatedRules (inst : List GoField) : List (GoField × VRule) :=
  inst.flatMap (fun f => (f.rules.filter (fun rule => !(ruleHolds rule f.value))).map (fun rule => (f, rule)))

/-- `Validator.Validate` (validator.go): convert the underlying validator's
errors and fast-fail after the first one. -/
def Validate (inst : List GoField) : Option (List ValidationError) :=
  match goStructErrors inst with
  | [] => none
  | e :: _ => some [e]

/-- `Validator.ValidateVar` (validator.go): like `Validate` for one value,
under the generic field name "value". -/
def validateVar (value : GoValue) (rules : List VRule) : Option (List ValidationError) :=
  match rules.find? (fun rule => !(ruleHolds rule value)) with
  | none => none
  | some rule =>
    some [{ field := "value"
            tag := ruleTag rule
            value := value
            param := ruleParam rule
            message := buildErrorMessage "value" (ruleTag rule) (ruleParam rule) value }]

/-- An `error` value observed by the router: either the validator's
`ValidationErrors` or some other error with a text. -/
inductive GoError where
  | validationErrs (errs : List ValidationError)
  | plain (text : String)

/-- `strings.Join(messages, "; ")`. -/
def joinSemicolon : List String → String
  | [] => ""
  | [s] => s
  | s :: rest => s ++ "; " ++ joinSemicolon rest

/-- `Error()` of the error values above (`ValidationErrors.Error` in
validator.go). -/
def goErrorText : GoError → String
  | .validationErrs [] => "validation errors"
  | .validationErrs errs => "validation failed: " ++ joinSemicolon (errs.map (·.message))
  | .plain text => text

/-- `Request` (types.go): absent and explicit-null `id` both unmarshal to a
nil interface, so both are `none`. -/
structure Request where
  jsonrpc : String
  method : String
  params : Option Json
  id : Option Json

/-- `Error` (types.go). -/
structure RpcError where
  code : Int
  message : String
  data : Option String
deriving DecidableEq

/-- `Response` (types.go). -/
structure Response where
  jsonrpc : String
  result : Option Json
  error : Option RpcError
  id : Option Json

def ErrParse : RpcError := ⟨-32700, "Parse error", none⟩

def ErrMethodNotFound : RpcError := ⟨-32601, "Method not found", none⟩

def ErrInternal : RpcError := ⟨-32603, "Internal error", none⟩

def NewResponse (result : Option Json) (id : Option Json) : Response :=
  ⟨"2.0", result, none, id⟩

def NewErrorResponse (e : RpcError) (id : Option Json) : Response :=
  ⟨"2.0", none, some e, id⟩

/-- Outcome of one handler invocation: a result, an error, or a panic. -/
inductive HandlerOut where
  | ok (result : Option Json)
  | err (msg : String)
  | crash (msg : String)

/-- `HandlerFunc` (router.go). -/
def HandlerFn : Type := Option Json → HandlerOut

/-- `MethodInfo` (router.go): the params schema is `json.Unmarshal` into the
schema struct (which can fail with a message) followed by validation of the
resulting field instances; the result schema is abstracted to the error it
reports, if any. -/
structure MethodInfo where
  handler : Option HandlerFn
  paramsSchema : Option (Json → Except String (List GoField))
  resultSchema : Option (Json → Option GoError)
  description : String
  validateParams : Bool
  validateResult : Bool

/-- The zero value `MethodInfo{}`. -/
def defaultMethodInfo : MethodInfo :=
  { handler := none
    paramsSchema := none
    resultSchema := none
    description := ""
    validateParams := false
    validateResult := false }

/-- `Router` (router.go): the name-keyed method registry, with Go-map lookup
semantics. -/
structure Router where
  methods : String → Option MethodInfo

/-- `NewRouter`. -/
def emptyRouter : Router := ⟨fun _ => none⟩

/-- `Router.RegisterMethod` (router.go): the error checks in source order,
then the insertion with `info.Handler = handler`.  The second component is
the registry after the call, unchanged on every error path. -/
def RegisterMethod (r : Router) (methodName : String) (handler : Option HandlerFn)
    (info : Option MethodInfo) : Except String Unit × Router :=
  if methodName = "" then (.error "method name cannot be empty", r)
  else if handler.isNone then (.error "handler cannot be nil", r)
  else if (validateVar (.str methodName) [.required, .min 1]).isSome then
    (.error "invalid method name", r)
  else if (r.methods methodName).isSome then
    (.error ("method " ++ apos ++ methodName ++ apos ++ " is already registered"), r)
  else
    (.ok (),
      ⟨fun n => if n = methodName then
          some { (info.getD defaultMethodInfo) with handler := handler }
        else r.methods n⟩)

/-- `Router.UnregisterMethod` (router.go). -/
def UnregisterMethod (r : Router) (methodName : String) : Except String Unit × Router :=
  if (r.methods methodName).isNone then
    (.error ("method " ++ apos ++ methodName ++ apos ++ " is not registered"), r)
  else
    (.ok (), ⟨fun n => if n = methodName then none else r.methods n⟩)

/-- The validated fields of a `Request`, from its struct tags
(`jsonrpc`: required, eq=2.0; `method`: required, min=1). -/
def requestFields (req : Request) : List GoField :=
  [⟨"jsonrpc", .str req.jsonrpc, [.required, .eq "2.0"]⟩,
   ⟨"method", .str req.method, [.required, .min 1]⟩]

/-- `Validator.ValidateRequest` (validator.go) on a parsed request. -/
def ValidateRequest (req : Request) : Option (List ValidationError) :=
  Validate (requestFields req)

/-- The validated fields of a `Response`: its own `jsonrpc` tag and, when an
error object is present, the nested `Error` struct's tags. -/
def responseFields (resp : Response) : List GoField :=
  ⟨"jsonrpc", .str resp.jsonrpc, [.required, .eq "2.0"]⟩ ::
    (match resp.error with
     | some e => [⟨"code", .int e.code, [.required]⟩,
                  ⟨"message", .str e.message, [.required, .min 1]⟩]
     | none => [])

/-- `Validator.ValidateResponse` (validator.go). -/
def ValidateResponse (resp : Response) : Option (List ValidationError) :=
  Validate (responseFields resp)

/-- `Router.createValidationError` (router.go). -/
def createValidationError : List ValidationError → RpcError
  | e :: _ => ⟨-32600, "Request validation failed", some e.message⟩
  | [] => ⟨-32600, "Request validation failed", some "validation errors"⟩

/-- `Router.createParamsError` (router.go). -/
def createParamsError : GoError → RpcError
  | .validationErrs (e :: _) => ⟨-32602, "Parameter validation failed", some e.message⟩
  | e => ⟨-32602, "Parameter validation failed", some (goErrorText e)⟩

/-- `Router.createInternalError` (router.go). -/
def createInternalError (text : String) : RpcError :=
  ⟨-32603, "Internal error", some text⟩

/-- `Router.validateParams` (router.go): nil params validate trivially;
otherwise unmarshal into the schema struct and validate the instance. -/
def validateParams (params : Option Json)
    (schema : Json → Except String (List GoField)) : Option GoError :=
  match params with
  | none => none
  | some p =>
    match schema p with
    | .error text => some (.plain ("failed to parse params: " ++ text))
    | .ok inst => (Validate inst).map .validationErrs

/-- `Router.validateResult` (router.go): nil results validate trivially. -/
def validateResult (result : Option Json) (schema : Json → Option GoError) : Option GoError :=
  match result with
  | none => none
  | some v => schema v

/-- The guard `methodInfo.ValidateParams && methodInfo.ParamsSchema != nil`
followed by `validateParams`. -/
def paramsCheck (mi : MethodInfo) (params : Option Json) : Option GoError :=
  match mi.validateParams, mi.paramsSchema with
  | true, some schema => validateParams params schema
  | _, _ => none

/-- The guard `methodInfo.ValidateResult && methodInfo.ResultSchema != nil`
followed by `validateResult`. -/
def resultCheck (mi : MethodInfo) (result : Option Json) : Option GoError :=
  match mi.validateResult, mi.resultSchema with
  | true, some schema => validateResult result schema
  | _, _ => none

/-- `Router.callHandler` (router.go): a panic inside the handler — also the
nil-pointer panic of calling a nil `Handler` — is recovered and turned into
an error. -/
def callHandler (handler : Option HandlerFn) (params : Option Json) :
    Except String (Option Json) :=
  match handler with
  | none => .error "handler panic: runtime error: invalid memory address or nil pointer dereference"
  | some h =>
    match h params with
    | .ok result => .ok result
    | .err msg => .error msg
    | .crash msg => .error ("handler panic: " ++ msg)

/-- `Router.Route` (router.go): validate the envelope, classify
notifications (which never produce a response; their processing effects are
not observable), look up the method, validate params, call the handler,
validate the result and the response. -/
def Route (r : Router) (req : Request) : Option Response :=
  match ValidateRequest req with
  | some verrs => some (NewErrorResponse (createValidationError verrs) req.id)
  | none =>
    if req.id.isNone then none
    else
      match r.methods req.method with
      | none => some (NewErrorResponse ErrMethodNotFound req.id)
      | some mi =>
        match paramsCheck mi req.params with
        | some e => some (NewErrorResponse (createParamsError e) req.id)
        | none =>
          match callHandler mi.handler req.params with
          | .error msg => some (NewErrorResponse (createInternalError msg) req.id)
          | .ok result =>
            match resultCheck mi result with
            | some e =>
              some (NewErrorResponse
                (createInternalError ("result validation failed: " ++ goErrorText e)) req.id)
            | none =>
              match ValidateResponse (NewResponse result req.id) with
              | some verrs =>
                some (NewErrorResponse
                  (createInternalError
                    ("response validation failed: " ++ goErrorText (.validationErrs verrs)))
                  req.id)
              | none => some (NewResponse result req.id)

/-- `Router.RouteJSON` (router.go) over the byte abstraction: the input is
either a parse failure or a parsed request, and a response is re-serialised
as itself (every response the router builds is serialisable, so the marshal
failure branch is unreachable). -/
def RouteJSON (r : Router) (input : Option Request) : Option Response :=
  match input with
  | none => some (NewErrorResponse ErrParse none)
  | some req => Route r req

end jsonrpc

/-- Whether a Go call returned a non-nil error. -/
def isErr {ε α : Type} : Except ε α → Bool
  | .error _ => true
  | .ok _ => false

/-- The schema instance of the C8 witness: two fields, both violating
`required`. -/
def instC8 : List jsonrpc.GoField :=
  [⟨"a", .str "", [.required]⟩, ⟨"b", .str "", [.required]⟩]

namespace websocket

/-! ## WebSocket hub (hub.go, client.go)

Clients are identified by an id plus their session code; each client's
buffered send channel is kept in the hub state, keyed by the id.  Go
channel semantics are explicit: a `select` with a send case and a
`default` panics on a closed channel, enqueues when there is room, and
takes the default when the buffer is full; a `select` with a receive
case and a `default` takes the receive whenever the channel is closed
or holds a message (consuming one when present).  `UnregisterClient`
requests submitted by the eviction paths are modelled as pending
clients to be fed back into `unregisterClient` by the hub loop. -/
/-- A buffered Go channel of outbound messages. -/
structure GoChan where
  cap : Nat
  buf : List String
  closed : Bool
deriving DecidableEq

/-- `close(ch)`. -/
def closeChan (ch : GoChan) : GoChan := { ch with closed := true }

/-- Outcome of `select { case ch <- m: ... default: ... }`. -/
inductive SendOutcome where
  | sent
  | dropped
  | crashed
deriving DecidableEq

/-- `select { case ch <- m: ... default: ... }`: a send on a closed channel
is chosen and panics; an open channel with room enqueues; a full open
channel takes the default. -/
def trySend (ch : GoChan) (m : String) : SendOutcome × GoChan :=
  if ch.closed then (.crashed, ch)
  else if ch.buf.length < ch.cap then (.sent, { ch with buf := ch.buf ++ [m] })
  else (.dropped, ch)

/-- The guarded close in `unregisterClient`:
`select { case <-ch: default: close(ch) }`.  The receive is ready whenever
the channel is closed or holds buffered messages; taking it consumes a
buffered message when one is present and does not close the channel.  Only
an open, empty channel reaches the default and is closed. -/
def guardedClose (ch : GoChan) : GoChan :=
  if ch.closed || ch.buf.length != 0 then { ch with buf := ch.buf.tail }
  else { ch with closed := true }

/-- A `Client` as the hub sees it: identity and session code. -/
structure HClient where
  id : Nat
  code : String
deriving DecidableEq

/-- The hub's state: the clients set, the session index, and each client's
send channel. -/
structure HubState where
  clients : List HClient
  sessions : String → Option HClient
  chans : Nat → GoChan

/-- `Hub.registerClient` (hub.go): insert into both maps. -/
def registerClient (st : HubState) (c : HClient) : HubState :=
  { st with
    clients := if c ∈ st.clients then st.clients else c :: st.clients
    sessions := fun s => if s = c.code then some c else st.sessions s }

/-- `Hub.unregisterClient` (hub.go): when the client is present, remove it
from the clients set, delete its session code from the index, and run the
guarded close on its send channel. -/
def unregisterClient (st : HubState) (c : HClient) : HubState :=
  if c ∈ st.clients then
    { clients := st.clients.erase c
      sessions := fun s => if s = c.code then none else st.sessions s
      chans := fun i => if i = c.id then guardedClose (st.chans i) else st.chans i }
  else st

/-- Outcome of `Client.Send` (client.go); the response enqueues in
`processJSONRPCMessage` and `sendJSONRPCError` are the same
select-with-default and are modelled by this same function. -/
inductive ClientSendOutcome where
  | queued
  | dropped
  | crashed
deriving DecidableEq

/-- `Client.Send` (client.go): non-blocking enqueue; a full channel drops
the message and changes nothing else — the hub registries are not
touched. -/
def clientSend (st : HubState) (c : HClient) (m : String) :
    ClientSendOutcome × HubState :=
  match trySend (st.chans c.id) m with
  | (.sent, ch) => (.queued, { st with chans := fun i => if i = c.id then ch else st.chans i })
  | (.dropped, _) => (.dropped, st)
  | (.crashed, _) => (.crashed, st)

/-- Result of `Hub.SendToSession`: an unknown session is silently dropped; a
full queue closes the channel and submits the client for unregistration. -/
inductive SendToSessionResult where
  | noSession (st : HubState)
  | delivered (st : HubState)
  | evicted (st : HubState) (pending : HClient)
  | crashed (st : HubState)

/-- `Hub.SendToSession` (hub.go). -/
def SendToSession (st : HubState) (code : String) (m : String) : SendToSessionResult :=
  match st.sessions code with
  | none => .noSession st
  | some c =>
    match trySend (st.chans c.id) m with
    | (.sent, ch) =>
      .delivered { st with chans := fun i => if i = c.id then ch else st.chans i }
    | (.dropped, _) =>
      .evicted
        { st with chans := fun i => if i = c.id then closeChan (st.chans i) else st.chans i } c
    | (.crashed, _) => .crashed st

/-- The fan-out loop of `Hub.broadcastMessage` (hub.go) over the snapshot of
the clients set: enqueue to each client; a full queue closes that client's
channel and queues it for unregistration; a send to a closed channel panics
(`none`). -/
def broadcastLoop (m : String) :
    List HClient → HubState → List HClient → Option (HubState × List HClient)
  | [], st, pending => some (st, pending)
  | c :: rest, st, pending =>
    match trySend (st.chans c.id) m with
    | (.sent, ch) =>
      broadcastLoop m rest
        { st with chans := fun i => if i = c.id then ch else st.chans i } pending
    | (.dropped, _) =>
      broadcastLoop m rest
        { st with chans := fun i => if i = c.id then closeChan (st.chans i) else st.chans i }
        (pending ++ [c])
    | (.crashed, _) => none

/-- `Hub.broadcastMessage` (hub.go): snapshot the clients set, then run the
fan-out loop. -/
def broadcastMessage (st : HubState) (m : String) : Option (HubState × List HClient) :=
  broadcastLoop m st.clients st []

/-- One request consumed by the hub's event loop, as claim C1 ranges over
them. -/
inductive HubOp where
  | register (c : HClient)
  | unregister (c : HClient)

def applyHubOp (st : HubState) : HubOp → HubState
  | .register c => registerClient st c
  | .unregister c => unregisterClient st c

def runHub (st : HubState) (ops : List HubOp) : HubState :=
  ops.foldl applyHubOp st

/-- `NewHub`: empty registries (channels are per-client and supplied by the
environment). -/
def emptyHub (chans : Nat → GoChan) : HubState :=
  { clients := [], sessions := fun _ => none, chans := chans }

/-- The clients registered over an operation sequence. -/
def registersOf : List HubOp → List HClient
  | [] => []
  | .register c :: rest => c :: registersOf rest
  | .unregister _ :: rest => registersOf rest

/-- The consistency of claim C1: the session index's entries are exactly the
clients set's codes, and every index entry is a member of the clients set. -/
def HubConsistent (st : HubState) : Prop :=
  (∀ s c, st.sessions s = some c → c ∈ st.clients ∧ c.code = s) ∧
  (∀ c ∈ st.clients, st.sessions c.code = some c)

/-- A hub holding one registered client whose send queue still holds one
buffered message (the failing input of claim C3). -/
def hubC3 : HubState :=
  { clients := [⟨0, "a-b-1"⟩]
    sessions := fun s => if s = "a-b-1" then some ⟨0, "a-b-1"⟩ else none
    chans := fun _ => ⟨256, ["queued-message"], false⟩ }

/-- The client of claim C4's concrete states. -/
def cFull : HClient := ⟨0, "a-b-1"⟩

/-- A hub holding one registered client whose send queue (capacity 1) is
full. -/
def stFull : HubState :=
  { clients := [cFull]
    sessions := fun s => if s = "a-b-1" then some cFull else none
    chans := fun _ => ⟨1, ["m0"], false⟩ }

end websocket

/-! ## Lemmas and theorems -/

/-! ## Character-level lemmas about the Go string helpers -/
lemma char_toNat_ofNat {n : Nat} (h : n < 55296) : (Char.ofNat n).toNat = n := by
  have hv : n.isValidChar := Or.inl h
  simp only [Char.ofNat, dif_pos hv, Char.ofNatAux, Char.toNat, UInt32.ofNat']
  simp [UInt32.toNat, BitVec.toNat_ofNatLt]

lemma char_le_iff_toNat {a b : Char} : a ≤ b ↔ a.toNat ≤ b.toNat := by
  rw [Char.le_def, UInt32.le_def]
  exact BitVec.le_def

lemma char_eq_iff_toNat {a b : Char} : a = b ↔ a.toNat = b.toNat := by
  constructor
  · intro h; rw [h]
  · intro h
    apply Char.ext
    apply UInt32.toNat.inj
    exact h

lemma charToLower_bounds (c : Char) (h : 'A' ≤ c ∧ c ≤ 'Z') :
    (charToLower c).toNat = c.toNat + 32 ∧
      97 ≤ (charToLower c).toNat ∧ (charToLower c).toNat ≤ 122 := by
  have h65 : (65:Nat) ≤ c.toNat := by
    have := char_le_iff_toNat.mp h.1; simpa using this
  have h90 : c.toNat ≤ 90 := by
    have := char_le_iff_toNat.mp h.2; simpa using this
  have : (charToLower c).toNat = c.toNat + 32 := by
    rw [charToLower, if_pos h, char_toNat_ofNat (by omega)]
  exact ⟨this, by omega, by omega⟩

lemma charToLower_idem (c : Char) : charToLower (charToLower c) = charToLower c := by
  by_cases h : 'A' ≤ c ∧ c ≤ 'Z'
  · obtain ⟨-, h97, -⟩ := charToLower_bounds c h
    rw [charToLower, if_neg]
    intro hcon
    have h90 := char_le_iff_toNat.mp hcon.2
    have hz : ('Z':Char).toNat = 90 := rfl
    rw [hz] at h90
    omega
  · have e : charToLower c = c := by rw [charToLower, if_neg h]
    simp only [e]

lemma isGoSpace_eq_false_of_alpha (c : Char) (h1 : 65 ≤ c.toNat) (h2 : c.toNat ≤ 122) :
    isGoSpace c = false := by
  simp only [isGoSpace, Bool.or_eq_false_iff, decide_eq_false_iff_not]
  refine ⟨⟨⟨⟨⟨?_, ?_⟩, ?_⟩, ?_⟩, ?_⟩, ?_⟩ <;>
    · intro hc
      have := char_eq_iff_toNat.mp hc
      first
      | (rw [show (' ':Char).toNat = 32 from rfl] at this; omega)
      | (rw [show ('\t':Char).toNat = 9 from rfl] at this; omega)
      | (rw [show ('\n':Char).toNat = 10 from rfl] at this; omega)
      | (rw [show (Char.ofNat 11).toNat = 11 from rfl] at this; omega)
      | (rw [show (Char.ofNat 12).toNat = 12 from rfl] at this; omega)
      | (rw [show ('\r':Char).toNat = 13 from rfl] at this; omega)

lemma isGoSpace_charToLower (c : Char) : isGoSpace (charToLower c) = isGoSpace c := by
  by_cases h : 'A' ≤ c ∧ c ≤ 'Z'
  · obtain ⟨-, h97, h122⟩ := charToLower_bounds c h
    have h65 : (65:Nat) ≤ c.toNat := by
      have := char_le_iff_toNat.mp h.1; simpa using this
    have h90 : c.toNat ≤ 90 := by
      have := char_le_iff_toNat.mp h.2; simpa using this
    rw [isGoSpace_eq_false_of_alpha _ (by omega) (by omega),
        isGoSpace_eq_false_of_alpha _ (by omega) (by omega)]
  · have e : charToLower c = c := by rw [charToLower, if_neg h]
    simp only [e]

/-! ## List-level lemmas: trimming and lowercasing commute, both idempotent -/
lemma goTrimL_goToLowerL (l : List Char) :
    goTrimL (goToLowerL l) = goToLowerL (goTrimL l) := by
  have hcomp : (fun c => isGoSpace (charToLower c)) = isGoSpace := by
    funext c; exact isGoSpace_charToLower c
  simp only [goTrimL, goToLowerL, List.dropWhile_map, Function.comp_def, hcomp,
    ← List.map_reverse]

lemma goToLowerL_idem (l : List Char) : goToLowerL (goToLowerL l) = goToLowerL l := by
  simp only [goToLowerL, List.map_map]
  congr 1
  funext c
  exact charToLower_idem c

lemma goTrimL_eq_rdrop (l : List Char) :
    goTrimL l = List.rdropWhile isGoSpace (l.dropWhile isGoSpace) := rfl

lemma goTrimL_idem (l : List Char) : goTrimL (goTrimL l) = goTrimL l := by
  rw [goTrimL_eq_rdrop, goTrimL_eq_rdrop]
  have hT : (List.rdropWhile isGoSpace (l.dropWhile isGoSpace)).dropWhile isGoSpace
      = List.rdropWhile isGoSpace (l.dropWhile isGoSpace) := by
    cases hT : List.rdropWhile isGoSpace (l.dropWhile isGoSpace) with
    | nil => rfl
    | cons a as =>
      obtain ⟨t, ht⟩ := List.rdropWhile_prefix isGoSpace (l.dropWhile isGoSpace)
      rw [hT] at ht
      have hA : l.dropWhile isGoSpace = a :: (as ++ t) := by
        rw [← ht]; rfl
      have hAA : (a :: (as ++ t)).dropWhile isGoSpace = a :: (as ++ t) := by
        rw [← hA]
        exact List.dropWhile_idempotent isGoSpace l
      have hhd : isGoSpace a = false := by
        by_contra hcon
        have hpa : isGoSpace a = true := by
          cases hval : isGoSpace a
          · exact absurd hval hcon
          · rfl
        rw [List.dropWhile_cons, if_pos hpa] at hAA
        have := congrArg List.length hAA
        have hle := (List.dropWhile_sublist (l := as ++ t) isGoSpace).length_le
        simp only [List.length_cons] at this
        omega
      rw [List.dropWhile_cons, if_neg (by simp [hhd])]
  rw [hT, List.rdropWhile_idempotent]

namespace session

lemma NormalizeCode_data (s : String) :
    (NormalizeCode s).data = goToLowerL (goTrimL s.data) := rfl

lemma NormalizeCode_idem (s : String) :
    NormalizeCode (NormalizeCode s) = NormalizeCode s := by
  apply String.ext
  rw [NormalizeCode_data, NormalizeCode_data, goTrimL_goToLowerL, goToLowerL_idem,
    goTrimL_idem]

lemma NormalizeCode_goToLower (s : String) :
    NormalizeCode (goToLower s) = NormalizeCode s := by
  apply String.ext
  show goToLowerL (goTrimL (goToLowerL s.data)) = goToLowerL (goTrimL s.data)
  rw [goTrimL_goToLowerL, goToLowerL_idem]

lemma goToLower_eq_empty_iff (s : String) : goToLower s = "" ↔ s = "" := by
  constructor
  · intro h
    have hd : (goToLower s).data = [] := by rw [h]
    have hlen : s.data.length = 0 := by
      have := congrArg List.length hd
      simpa [goToLower, goToLowerL] using this
    exact String.ext (List.length_eq_zero.mp hlen)
  · intro h; rw [h]; rfl

lemma IsValidFormat_normalize (s : String) :
    IsValidFormat (NormalizeCode s) = IsValidFormat s := by
  by_cases hs : s = ""
  · subst hs; rfl
  · by_cases hn : NormalizeCode s = ""
    · rw [IsValidFormat, if_pos hn, IsValidFormat, if_neg hs]
      have : (goToLower (goTrim s)).data = [] := by
        rw [show goToLower (goTrim s) = NormalizeCode s from rfl, hn]
      rw [this]
      rfl
    · rw [IsValidFormat, if_neg hn, IsValidFormat, if_neg hs]
      have : goToLower (goTrim (NormalizeCode s)) = goToLower (goTrim s) :=
        NormalizeCode_idem s
      rw [this]

lemma IsValidFormat_goToLower (s : String) :
    IsValidFormat (goToLower s) = IsValidFormat s := by
  by_cases hs : s = ""
  · subst hs; rfl
  · have hls : goToLower s ≠ "" := by
      intro h; exact hs ((goToLower_eq_empty_iff s).mp h)
    rw [IsValidFormat, if_neg hls, IsValidFormat, if_neg hs]
    have : goToLower (goTrim (goToLower s)) = goToLower (goTrim s) :=
      NormalizeCode_goToLower s
    rw [this]

end session

lemma range_check_eq (n : Int) :
    (if n < 1 || n > 99 then false else true) = (decide (1 ≤ n) && decide (n ≤ 99)) := by
  rcases lt_or_ge n 1 with h | h
  · have : ¬ (1 ≤ n) := by omega
    simp [h, this]
  · rcases le_or_lt n 99 with h2 | h2
    · have hn1 : ¬ (n < 1) := by omega
      have hn2 : ¬ (n > 99) := by omega
      simp [hn1, hn2, h, h2]
    · have hg : n > 99 := h2
      have : ¬ (n ≤ 99) := by omega
      simp [hg, this]

lemma nrange_eq (n : Int) :
    (!decide (n < 1) && !decide (99 < n)) = (decide (1 ≤ n) && decide (n ≤ 99)) := by
  by_cases a : 1 ≤ n
  · by_cases b : n ≤ 99
    · simp [a, b, show ¬ (n < 1) from by omega, show ¬ (99 < n) from by omega]
    · simp [b, show 99 < n from by omega]
  · simp [a, show n < 1 from by omega]

lemma validFormatParts_eq_sessionCodeParts (parts : List (List Char)) :
    session.validFormatParts parts = jsonrpc.sessionCodeParts parts := by
  match parts with
  | [] => rfl
  | [_] => rfl
  | [_, _] => rfl
  | [p₁, p₂, p₃] =>
    simp only [session.validFormatParts, jsonrpc.sessionCodeParts]
    rcases hscan : goScanIntL p₃ with - | n
    · simp [hscan]
    · simp only [hscan]
      exact if_congr Iff.rfl rfl (if_congr Iff.rfl rfl (range_check_eq n))
  | _ :: _ :: _ :: _ :: _ => rfl

lemma validFormatParts_eq_amendedParts (parts : List (List Char)) :
    session.validFormatParts parts =
      ((parts.length == 3) && parts.all (fun seg => !(goTrimL seg).isEmpty) &&
        (match parts.getLast? with
         | some last =>
           decide (last.length ≤ 2) &&
             (match goScanIntL last with
              | some n => decide (1 ≤ n) && decide (n ≤ 99)
              | none => false)
         | none => false)) := by
  match parts with
  | [] => rfl
  | [_] => rfl
  | [_, _] => rfl
  | [p₁, p₂, p₃] =>
    simp only [session.validFormatParts, List.all_cons, List.all_nil,
      List.getLast?_cons_cons, List.getLast?_singleton, List.length_cons,
      List.length_nil]
    by_cases h1 : goTrimL p₁ = []
    · simp [h1, List.isEmpty_iff]
    · by_cases h2 : goTrimL p₂ = []
      · simp [h1, h2, List.isEmpty_iff]
      · by_cases h3 : goTrimL p₃ = []
        · simp [h1, h2, h3, List.isEmpty_iff]
        · have e1 : (goTrimL p₁).isEmpty = false := by simpa [List.isEmpty_iff] using h1
          have e2 : (goTrimL p₂).isEmpty = false := by simpa [List.isEmpty_iff] using h2
          have e3 : (goTrimL p₃).isEmpty = false := by simpa [List.isEmpty_iff] using h3
          simp only [h1, h2, h3, e1, e2, e3, Bool.not_false, Bool.and_true, Bool.true_and,
            decide_eq_true_eq]
          by_cases hlen0 : p₃.length = 0
          · have hp3 : p₃ = [] := List.length_eq_zero.mp hlen0
            rw [hp3] at h3
            exact absurd rfl h3
          · by_cases hlen2 : p₃.length > 2
            · simp [hlen0, hlen2, show ¬ (p₃.length ≤ 2) from by omega]
            · have hle : p₃.length ≤ 2 := by omega
              rcases hscan : goScanIntL p₃ with - | n
              · simp [hscan, hlen0, hlen2, hle]
              · simp [hscan, hlen0, hlen2, hle, nrange_eq]
  | _ :: _ :: _ :: _ :: _ => rfl

/-- Claim C5 as stated is false on the code: the code "a-b-099" consists of
three dash-separated non-empty segments whose last segment parses as the
integer 99 ∈ [1,99], so the claimed predicate accepts it, yet
`Generator.IsValidFormat` rejects it, because the implementation additionally
requires the last segment to be at most two characters long. -/
theorem C5_counterexample :
    session.IsValidFormat "a-b-099" = false ∧ claimedValidFormat "a-b-099" = true := by
  constructor
  · rfl
  · rfl

/-- Claim C5 (amended): `IsValidFormat` and the mirrored `sessioncode`
validator rule agree on every code; a code is accepted iff, after trimming
and lowercasing, it consists of exactly three dash-separated non-blank
segments whose last segment is at most two characters long and scans as
`fmt.Sscanf "%d"` scans it to an integer in [1,99]; acceptance is
case-insensitive (any two codes with the same lowercasing agree); and in
particular "happy-panda-100" is rejected while "HAPPY-PANDA-42" and
"happy-panda-42" are accepted. -/
theorem C5_session_code_validation :
    (∀ code, session.IsValidFormat code = jsonrpc.validateSessionCode code) ∧
    (∀ code, session.IsValidFormat code = amendedValidFormat code) ∧
    (∀ c c' : String, goToLower c = goToLower c' →
        session.IsValidFormat c = session.IsValidFormat c') ∧
    session.IsValidFormat "happy-panda-100" = false ∧
    session.IsValidFormat "HAPPY-PANDA-42" = true ∧
    session.IsValidFormat "happy-panda-42" = true := by
  refine ⟨?_, ?_, ?_, rfl, rfl, rfl⟩
  · intro code
    by_cases hc : code = ""
    · subst hc; rfl
    · rw [session.IsValidFormat, jsonrpc.validateSessionCode, if_neg hc, if_neg hc,
        validFormatParts_eq_sessionCodeParts]
  · intro code
    by_cases hc : code = ""
    · subst hc; rfl
    · rw [session.IsValidFormat, amendedValidFormat, if_neg hc,
        validFormatParts_eq_amendedParts]
  · intro c c' h
    rw [← session.IsValidFormat_goToLower c, ← session.IsValidFormat_goToLower c', h]

/-- Witness for the case-insensitivity hypothesis of the amended claim C5 at
a concrete pair of codes differing only in letter case. -/
theorem C5_witness :
    goToLower "HaPPy-PaNDa-42" = goToLower "happy-panda-42" ∧
    session.IsValidFormat "HaPPy-PaNDa-42" = session.IsValidFormat "happy-panda-42" :=
  ⟨by decide, C5_session_code_validation.2.2.1 "HaPPy-PaNDa-42" "happy-panda-42" (by decide)⟩

lemma lookupKey_mem {α : Type} {k : String} {v : α} :
    ∀ {l : List (String × α)}, lookupKey k l = some v → (k, v) ∈ l := by
  intro l
  induction l with
  | nil => intro h; exact absurd h (by simp [lookupKey])
  | cons p rest ih =>
    intro h
    rw [lookupKey] at h
    by_cases hk : p.1 = k
    · rw [if_pos hk] at h
      have hp : p = (k, v) := by
        have : p = (p.1, p.2) := rfl
        rw [this, hk, Option.some.inj h]
      rw [← hp]
      exact List.mem_cons_self p rest
    · rw [if_neg hk] at h
      exact List.mem_cons_of_mem _ (ih h)

lemma mem_eraseKey {α : Type} {k : String} {p : String × α} {l : List (String × α)} :
    p ∈ eraseKey k l → p ∈ l ∧ p.1 ≠ k := by
  intro h
  rw [eraseKey, List.mem_filter] at h
  exact ⟨h.1, by simpa using h.2⟩

lemma lookupKey_eraseKey {α : Type} (k : String) (l : List (String × α)) :
    lookupKey k (eraseKey k l) = none := by
  induction l with
  | nil => rfl
  | cons p rest ih =>
    rw [eraseKey, List.filter]
    by_cases hk : p.1 = k
    · simp only [hk, bne_self_eq_false]
      exact ih
    · have : (p.1 != k) = true := by simpa using hk
      rw [this]
      rw [lookupKey, if_neg hk]
      exact ih

lemma mem_upsert {α : Type} {k : String} {v : α} {p : String × α} {l : List (String × α)} :
    p ∈ upsert k v l → p = (k, v) ∨ (p ∈ l ∧ p.1 ≠ k) := by
  intro h
  rw [upsert] at h
  rcases List.mem_cons.mp h with h | h
  · exact Or.inl h
  · exact Or.inr (mem_eraseKey h)

/-- Claim C6: `GetSession` returns `InvalidSessionCode` on an empty or
malformed code; otherwise it normalizes (trim plus lowercase) and returns
`SessionNotFound` on a miss; a hit whose `lastAccessed` is older than the
timeout (`now - lastAccessed > timeout`) is deleted from the store and
reported `SessionExpired`; otherwise `lastAccessed` is bumped to `now` and
the session is returned — stated as equality with the claim's own case
analysis, together with the fact that after the expired case the normalized
code is absent from storage. -/
theorem C6_get_session :
    (∀ (st : session.ManagerState) (now : Int) (code : String),
      session.GetSession st now code = session.specGetSession st now code) ∧
    (∀ (st : session.ManagerState) (now : Int) (code : String) (sess : session.Session),
      session.IsValidFormat code = true →
      lookupKey (session.NormalizeCode code) st.sessions = some sess →
      now - sess.lastAccessed > st.sessionTimeout →
      session.GetSession st now code =
        (.error .sessionExpired,
          { st with sessions := eraseKey (session.NormalizeCode code) st.sessions }) ∧
      lookupKey (session.NormalizeCode code)
        (eraseKey (session.NormalizeCode code) st.sessions) = none) := by
  constructor
  · intro st now code
    rw [session.GetSession, session.specGetSession]
    by_cases hc : code = ""
    · simp [hc]
    · by_cases hv : session.IsValidFormat code = true
      · have hnv : ¬ ¬ session.IsValidFormat code = true := by simp [hv]
        rw [if_neg hc, if_neg hnv, if_neg (by simp [hc, hv])]
        cases hl : lookupKey (session.NormalizeCode code) st.sessions with
        | none => rfl
        | some sess =>
          by_cases hexp : now - sess.lastAccessed > st.sessionTimeout
          · simp [session.isExpired, hexp]
          · simp [session.isExpired, hexp]
      · have hv' : session.IsValidFormat code = false := by
          cases h : session.IsValidFormat code
          · rfl
          · exact absurd h hv
        rw [if_neg hc, if_pos (by simp [hv]), if_pos (Or.inr hv')]
  · intro st now code sess hvalid hlook hexp
    have hc : code ≠ "" := by
      intro h
      rw [h] at hvalid
      exact absurd hvalid (by decide)
    constructor
    · rw [session.GetSession, if_neg hc, if_neg (by simp [hvalid])]
      simp only [hlook]
      rw [if_pos]
      simp [session.isExpired, hexp]
    · exact lookupKey_eraseKey _ _

/-- Witness for claim C6 at a concrete manager: the stored session under
"a-b-1" was last accessed at time 0, the timeout is 5, and the lookup happens
at time 100, so it is reported expired and removed. -/
theorem C6_witness :
    session.IsValidFormat "a-b-1" = true ∧
    lookupKey (session.NormalizeCode "a-b-1")
      [("a-b-1", (⟨"a-b-1", 0, 0, []⟩ : session.Session))] = some ⟨"a-b-1", 0, 0, []⟩ ∧
    (100 : Int) - (⟨"a-b-1", 0, 0, []⟩ : session.Session).lastAccessed > (5 : Int) ∧
    (session.GetSession ⟨[("a-b-1", ⟨"a-b-1", 0, 0, []⟩)], 5⟩ 100 "a-b-1" =
        (.error .sessionExpired,
          { (⟨[("a-b-1", ⟨"a-b-1", 0, 0, []⟩)], 5⟩ : session.ManagerState) with
              sessions := eraseKey (session.NormalizeCode "a-b-1")
                            [("a-b-1", ⟨"a-b-1", 0, 0, []⟩)] }) ∧
      lookupKey (session.NormalizeCode "a-b-1")
        (eraseKey (session.NormalizeCode "a-b-1")
          [("a-b-1", (⟨"a-b-1", 0, 0, []⟩ : session.Session))]) = none) :=
  ⟨by decide, by decide, by decide,
    C6_get_session.2 (⟨[("a-b-1", ⟨"a-b-1", 0, 0, []⟩)], 5⟩ : session.ManagerState) 100
      "a-b-1" (⟨"a-b-1", 0, 0, []⟩ : session.Session)
      (by decide) (by decide) (by decide)⟩

namespace session

lemma createLoop_collision_true (sessions : List (String × Session))
    (cands : Nat → String) (cancelled : Nat → Bool) :
    ∀ (fuel attempt : Nat) (code₀ c : String),
      createLoop sessions cands cancelled attempt fuel code₀ true ≠ .exhausted c false := by
  intro fuel
  induction fuel with
  | zero =>
    intro attempt code₀ c h
    rw [createLoop] at h
    exact absurd (CreateLoopOut.exhausted.inj h).2 (by simp)
  | succ n ih =>
    intro attempt code₀ c h
    rw [createLoop] at h
    by_cases hv : IsValidFormat (cands attempt) = true
    · rw [if_neg (by simp [hv])] at h
      by_cases hcoll : (lookupKey (NormalizeCode (cands attempt)) sessions).isSome = true
      · rw [if_pos hcoll] at h
        by_cases hcanc : cancelled attempt = true
        · rw [if_pos hcanc] at h
          exact CreateLoopOut.noConfusion h
        · rw [if_neg (by simp [hcanc])] at h
          exact ih (attempt+1) (cands attempt) c h
      · rw [if_neg hcoll] at h
        exact CreateLoopOut.noConfusion h
    · rw [if_pos (by simp [hv])] at h
      exact ih (attempt+1) (cands attempt) c h

lemma createLoop_no_valid_exhausts (sessions : List (String × Session))
    (cands : Nat → String) (cancelled : Nat → Bool) :
    ∀ (fuel attempt : Nat) (code₀ : String) (coll : Bool) (c : String),
      (∃ i, i < fuel ∧ IsValidFormat (cands (attempt + i)) = true) →
      createLoop sessions cands cancelled attempt fuel code₀ coll ≠ .exhausted c false := by
  intro fuel
  induction fuel with
  | zero =>
    intro attempt code₀ coll c hex
    obtain ⟨i, hi, -⟩ := hex
    omega
  | succ n ih =>
    intro attempt code₀ coll c hex h
    obtain ⟨i, hi, hvi⟩ := hex
    rw [createLoop] at h
    by_cases hv : IsValidFormat (cands attempt) = true
    · rw [if_neg (by simp [hv])] at h
      by_cases hcoll : (lookupKey (NormalizeCode (cands attempt)) sessions).isSome = true
      · rw [if_pos hcoll] at h
        by_cases hcanc : cancelled attempt = true
        · rw [if_pos hcanc] at h
          exact CreateLoopOut.noConfusion h
        · rw [if_neg (by simp [hcanc])] at h
          exact createLoop_collision_true sessions cands cancelled n (attempt+1)
            (cands attempt) c h
      · rw [if_neg hcoll] at h
        exact CreateLoopOut.noConfusion h
    · rw [if_pos (by simp [hv])] at h
      have hi0 : i ≠ 0 := by
        intro h0
        rw [h0, Nat.add_zero] at hvi
        exact hv hvi
      refine ih (attempt+1) (cands attempt) coll c ⟨i - 1, by omega, ?_⟩ h
      have harith : attempt + 1 + (i - 1) = attempt + i := by omega
      rw [harith]
      exact hvi

lemma createLoop_broke (sessions : List (String × Session))
    (cands : Nat → String) (cancelled : Nat → Bool) :
    ∀ (fuel attempt : Nat) (code₀ : String) (coll : Bool) (c : String),
      createLoop sessions cands cancelled attempt fuel code₀ coll = .broke c →
      ∃ i, c = NormalizeCode (cands i) ∧ IsValidFormat (cands i) = true := by
  intro fuel
  induction fuel with
  | zero =>
    intro attempt code₀ coll c h
    rw [createLoop] at h
    exact CreateLoopOut.noConfusion h
  | succ n ih =>
    intro attempt code₀ coll c h
    rw [createLoop] at h
    by_cases hv : IsValidFormat (cands attempt) = true
    · rw [if_neg (by simp [hv])] at h
      by_cases hcoll : (lookupKey (NormalizeCode (cands attempt)) sessions).isSome = true
      · rw [if_pos hcoll] at h
        by_cases hcanc : cancelled attempt = true
        · rw [if_pos hcanc] at h
          exact CreateLoopOut.noConfusion h
        · rw [if_neg (by simp [hcanc])] at h
          exact ih (attempt+1) (cands attempt) true c h
      · rw [if_neg hcoll] at h
        exact ⟨attempt, (CreateLoopOut.broke.inj h).symm, hv⟩
    · rw [if_pos (by simp [hv])] at h
      exact ih (attempt+1) (cands attempt) coll c h

lemma keyInvariant_upsert {st : ManagerState} {k : String} {sess : Session}
    (hinv : KeyInvariant st) (hk1 : IsValidFormat k = true)
    (hk2 : NormalizeCode k = k) (hcode : sess.code = k) :
    KeyInvariant { st with sessions := upsert k sess st.sessions } := by
  intro p hp
  rcases mem_upsert hp with hp | hp
  · rw [hp]
    exact ⟨hk1, hk2, hcode⟩
  · exact hinv p hp.1

lemma applyOp_preserves {st : ManagerState} {op : MgrOp}
    (hinv : KeyInvariant st) (hop : goodOp op) : KeyInvariant (applyOp st op) := by
  cases op with
  | create now opts cands cancelled =>
    rw [applyOp, CreateSession]
    cases hloop : createLoop st.sessions cands cancelled 0 (opts.maxRetries + 1) "" false with
    | cancelledOut => exact hinv
    | broke c =>
      obtain ⟨i, hc, hvi⟩ :=
        createLoop_broke st.sessions cands cancelled (opts.maxRetries + 1) 0 "" false c hloop
      subst hc
      exact keyInvariant_upsert hinv
        (by rw [IsValidFormat_normalize]; exact hvi) (NormalizeCode_idem _) rfl
    | exhausted c coll =>
      cases coll with
      | true => exact hinv
      | false =>
        obtain ⟨i, hi, hvi⟩ := hop
        exact absurd hloop
          (createLoop_no_valid_exhausts st.sessions cands cancelled (opts.maxRetries + 1)
            0 "" false c ⟨i, by omega, by simpa using hvi⟩)
  | get now code =>
    rw [applyOp, GetSession]
    by_cases hc : code = ""
    · rw [if_pos hc]; exact hinv
    · rw [if_neg hc]
      by_cases hv : IsValidFormat code = true
      · rw [if_neg (by simp [hv])]
        cases hl : lookupKey (NormalizeCode code) st.sessions with
        | none => exact hinv
        | some sess =>
          dsimp only
          by_cases hexp : isExpired st.sessionTimeout now sess = true
          · rw [if_pos hexp]
            intro p hp
            exact hinv p (mem_eraseKey hp).1
          · rw [if_neg hexp]
            obtain ⟨hk1, hk2, hcode⟩ := hinv _ (lookupKey_mem hl)
            exact keyInvariant_upsert hinv hk1 hk2 hcode
      · rw [if_pos (by simp [hv])]; exact hinv
  | update now code data =>
    rw [applyOp, UpdateSessionData]
    by_cases hc : code = ""
    · rw [if_pos hc]; exact hinv
    · rw [if_neg hc]
      cases hl : lookupKey (NormalizeCode code) st.sessions with
      | none => exact hinv
      | some sess =>
        dsimp only
        by_cases hexp : isExpired st.sessionTimeout now sess = true
        · rw [if_pos hexp]
          intro p hp
          exact hinv p (mem_eraseKey hp).1
        · rw [if_neg hexp]
          obtain ⟨hk1, hk2, hcode⟩ := hinv _ (lookupKey_mem hl)
          exact keyInvariant_upsert hinv hk1 hk2 hcode
  | del code =>
    rw [applyOp, DeleteSession]
    by_cases hc : code = ""
    · rw [if_pos hc]; exact hinv
    · rw [if_neg hc]
      by_cases hv : IsValidFormat code = true
      · rw [if_neg (by simp [hv])]
        cases hl : lookupKey (NormalizeCode code) st.sessions with
        | none => exact hinv
        | some sess =>
          intro p hp
          exact hinv p (mem_eraseKey hp).1
      · rw [if_pos (by simp [hv])]; exact hinv
  | cleanup now =>
    rw [applyOp, Cleanup]
    intro p hp
    exact hinv p (List.mem_filter.mp hp).1

end session

/-- Claim C10 as stated is false on the code: when every generated candidate
fails the format check, the retry loop of `CreateSession` exhausts with the
`collision` flag still at its zero value, so the error branch is skipped and
the last raw candidate — here "Bad_Code", which fails `IsValidFormat` and is
not equal to its own normalization — is stored as a key of the sessions map. -/
theorem C10_counterexample :
    (session.CreateSession ⟨[], 1000⟩ 0 ⟨0, []⟩ (fun _ => "Bad_Code")
        (fun _ => false)).2.sessions =
      [("Bad_Code", ⟨"Bad_Code", 0, 0, []⟩)] ∧
    session.IsValidFormat "Bad_Code" = false ∧
    session.NormalizeCode "Bad_Code" ≠ "Bad_Code" := by
  refine ⟨rfl, rfl, ?_⟩
  decide

/-- Claim C10 (amended): provided every `CreateSession` call is given at
least one candidate that passes the format check within its retry budget, in
every reachable state of the manager each key of the sessions map passes
`IsValidFormat`, equals its own `NormalizeCode` and equals the `Code` field
of the session stored under it; a call whose candidates all fail the check
can instead insert its last raw candidate as a key. -/
theorem C10_store_key_invariant :
    ∀ (ops : List session.MgrOp) (st : session.ManagerState),
      session.KeyInvariant st → (∀ op ∈ ops, session.goodOp op) →
      session.KeyInvariant (session.runOps st ops) := by
  intro ops
  induction ops with
  | nil =>
    intro st hinv _
    exact hinv
  | cons op rest ih =>
    intro st hinv hgood
    rw [session.runOps, List.foldl_cons]
    exact ih _ (session.applyOp_preserves hinv (hgood op (List.mem_cons_self _ _)))
      (fun o ho => hgood o (List.mem_cons_of_mem _ ho))

/-- Witness for the amended claim C10: an empty manager runs a create with a
valid candidate followed by a lookup, and the key invariant holds at the
end. -/
theorem C10_witness :
    session.KeyInvariant ⟨[], 5⟩ ∧
    (∀ op ∈ [session.MgrOp.create 0 ⟨0, []⟩ (fun _ => "ok-ok-1") (fun _ => false),
        session.MgrOp.get 1 "ok-ok-1"], session.goodOp op) ∧
    session.KeyInvariant
      (session.runOps ⟨[], 5⟩
        [session.MgrOp.create 0 ⟨0, []⟩ (fun _ => "ok-ok-1") (fun _ => false),
         session.MgrOp.get 1 "ok-ok-1"]) := by
  have hinv0 : session.KeyInvariant ⟨[], 5⟩ := by
    intro p hp
    exact absurd hp (List.not_mem_nil p)
  have hgood : ∀ op ∈ [session.MgrOp.create 0 ⟨0, []⟩ (fun _ => "ok-ok-1") (fun _ => false),
      session.MgrOp.get 1 "ok-ok-1"], session.goodOp op := by
    intro op hop
    rcases List.mem_cons.mp hop with h | h
    · subst h
      exact ⟨0, Nat.le_refl 0, by decide⟩
    · rcases List.mem_cons.mp h with h | h
      · subst h
        exact trivial
      · exact absurd h (List.not_mem_nil _)
  exact ⟨hinv0, hgood, C10_store_key_invariant _ _ hinv0 hgood⟩

lemma string_eq_empty_of_length (s : String) (h : s.length = 0) : s = "" :=
  String.ext (List.length_eq_zero.mp h)

namespace jsonrpc

lemma validateRequest_ok (req : Request) (hv : req.jsonrpc = "2.0")
    (hm : req.method ≠ "") : ValidateRequest req = none := by
  have h1 : (req.method != "") = true := by simpa using hm
  have h2 : decide (1 ≤ req.method.length) = true := by
    simp only [decide_eq_true_eq]
    have h0 : req.method.length ≠ 0 := fun h0 => hm (string_eq_empty_of_length _ h0)
    omega
  have herr : goStructErrors (requestFields req) = [] := by
    simp [goStructErrors, requestFields, List.find?, ruleHolds, hv, h1, h2]
  rw [ValidateRequest, Validate, herr]

end jsonrpc

/-- Claim C2 as stated is false on the code: `Route` validates the request
envelope before classifying notifications, so the notification
`{"jsonrpc":"1.0","method":"x"}` (no id) produces an InvalidRequest
response, and `RouteJSON` produces the corresponding bytes. -/
theorem C2_counterexample :
    (jsonrpc.Route jsonrpc.emptyRouter ⟨"1.0", "x", none, none⟩).isSome = true ∧
    (jsonrpc.RouteJSON jsonrpc.emptyRouter (some ⟨"1.0", "x", none, none⟩)).isSome = true :=
  ⟨rfl, rfl⟩

/-- Claim C2 (amended): for every notification whose envelope is valid
(version "2.0" and nonempty method), routing produces no response — `Route`
returns `none` and `RouteJSON` returns nil bytes — even when the method is
unknown or the params fail schema validation; a notification whose envelope
fails validation instead yields an InvalidRequest response carrying a null
id. -/
theorem C2_notification_silence :
    (∀ (r : jsonrpc.Router) (req : jsonrpc.Request),
      req.id = none → req.jsonrpc = "2.0" → req.method ≠ "" →
      jsonrpc.Route r req = none ∧ jsonrpc.RouteJSON r (some req) = none) ∧
    (∀ (r : jsonrpc.Router) (req : jsonrpc.Request) (e : jsonrpc.ValidationError)
        (rest : List jsonrpc.ValidationError),
      req.id = none → jsonrpc.ValidateRequest req = some (e :: rest) →
      jsonrpc.Route r req =
        some (jsonrpc.NewErrorResponse
          ⟨-32600, "Request validation failed", some e.message⟩ none)) := by
  constructor
  · intro r req hid hv hm
    have hroute : jsonrpc.Route r req = none := by
      rw [jsonrpc.Route, jsonrpc.validateRequest_ok req hv hm]
      rw [if_pos (by simp [hid])]
    exact ⟨hroute, by rw [jsonrpc.RouteJSON, hroute]⟩
  · intro r req e rest hid hval
    rw [jsonrpc.Route, hval, hid]
    rfl

/-- Witness for the amended claim C2: the valid-envelope notification
`{"jsonrpc":"2.0","method":"ping"}` against the empty router draws no
response, and the envelope-invalid notification `{"jsonrpc":"1.0",
"method":"x"}` draws an InvalidRequest response with null id. -/
theorem C2_witness :
    ((none : Option jsonrpc.Json) = none ∧ "2.0" = "2.0" ∧ "ping" ≠ "" ∧
      jsonrpc.Route jsonrpc.emptyRouter ⟨"2.0", "ping", none, none⟩ = none ∧
      jsonrpc.RouteJSON jsonrpc.emptyRouter (some ⟨"2.0", "ping", none, none⟩) = none) ∧
    (jsonrpc.Route jsonrpc.emptyRouter ⟨"1.0", "x", none, none⟩).isSome = true :=
  ⟨⟨rfl, rfl, by decide,
    C2_notification_silence.1 jsonrpc.emptyRouter ⟨"2.0", "ping", none, none⟩
      rfl rfl (by decide)⟩,
    rfl⟩

/-- Claim C7: every response `Route` produces for a request carries exactly
the request's id — across success, InvalidRequest, MethodNotFound,
InvalidParams and InternalError — and a byte input that fails to parse
yields a ParseError response with a null id. -/
theorem C7_response_id :
    (∀ (r : jsonrpc.Router) (req : jsonrpc.Request) (resp : jsonrpc.Response),
      req.id ≠ none → jsonrpc.Route r req = some resp → resp.id = req.id) ∧
    (∀ r : jsonrpc.Router,
      jsonrpc.RouteJSON r none =
        some (jsonrpc.NewErrorResponse jsonrpc.ErrParse none)) := by
  constructor
  · intro r req resp hid h
    rw [jsonrpc.Route] at h
    repeat'
      first
      | exact Option.noConfusion h
      | (injection h with h₂; subst h₂; rfl)
      | split at h
  · intro r
    rfl

/-- Witness for claim C7: a request with id 1 for an unregistered method
draws a MethodNotFound response carrying id 1. -/
theorem C7_witness :
    (some (jsonrpc.Json.num 1) ≠ (none : Option jsonrpc.Json)) ∧
    jsonrpc.Route jsonrpc.emptyRouter ⟨"2.0", "x", none, some (.num 1)⟩ =
      some (jsonrpc.NewErrorResponse jsonrpc.ErrMethodNotFound (some (.num 1))) ∧
    (jsonrpc.NewErrorResponse jsonrpc.ErrMethodNotFound
        (some (jsonrpc.Json.num 1))).id = some (.num 1) :=
  ⟨by simp, rfl,
    C7_response_id.1 jsonrpc.emptyRouter ⟨"2.0", "x", none, some (.num 1)⟩
      (jsonrpc.NewErrorResponse jsonrpc.ErrMethodNotFound (some (.num 1)))
      (by simp) rfl⟩

namespace jsonrpc

lemma find?_eq_head?_filter {α : Type} (p : α → Bool) (l : List α) :
    l.find? p = (l.filter p).head? := by
  induction l with
  | nil => rfl
  | cons a rest ih =>
    cases hp : p a
    · rw [List.find?_cons_of_neg _ (by simp [hp]), List.filter_cons_of_neg (by simp [hp])]
      exact ih
    · rw [List.find?_cons_of_pos _ hp, List.filter_cons_of_pos hp]
      rfl

lemma goStructErrors_head (f : GoField) (rule : VRule)
    (rest : List (GoField × VRule)) :
    ∀ inst : List GoField,
      violatedRules inst = (f, rule) :: rest →
      ∃ es, goStructErrors inst = mkVErr f rule :: es := by
  intro inst
  induction inst generalizing rest with
  | nil =>
    intro h
    rw [violatedRules] at h
    simp at h
  | cons x xs ih =>
    intro h
    rw [violatedRules, List.flatMap_cons] at h
    rw [goStructErrors, List.filterMap_cons]
    cases hb : x.rules.filter (fun rule => !(ruleHolds rule x.value)) with
    | nil =>
      have hf : x.rules.find? (fun rule => !(ruleHolds rule x.value)) = none := by
        rw [find?_eq_head?_filter, hb]
        rfl
      rw [hf]
      apply ih
      rw [hb] at h
      simpa [violatedRules] using h
    | cons b bs =>
      have hf : x.rules.find? (fun rule => !(ruleHolds rule x.value)) = some b := by
        rw [find?_eq_head?_filter, hb]
        rfl
      rw [hf]
      rw [hb] at h
      simp only [List.map_cons, List.cons_append, List.cons.injEq, Prod.mk.injEq] at h
      obtain ⟨⟨hx, hrule⟩, -⟩ := h
      subst hx
      subst hrule
      exact ⟨_, rfl⟩

lemma validateVar_name_ok (name : String) (h : name ≠ "") :
    validateVar (.str name) [.required, .min 1] = none := by
  have h1 : (name != "") = true := by simpa using h
  have h2 : decide (1 ≤ name.length) = true := by
    simp only [decide_eq_true_eq]
    have h0 : name.length ≠ 0 := fun h0 => h (FLE.string_eq_empty_of_length _ h0)
    omega
  rw [validateVar]
  simp [List.find?, ruleHolds, h1, h2]

end jsonrpc

/-- Claim C8: when a value violates two or more validation rules, `Validate`
reports exactly one structured error — the first violated rule in field then
rule order, carrying field, tag, offending value, rule parameter and human
message — and the InvalidParams error the router attaches to the response
carries only that error's message as its data. -/
theorem C8_fast_fail :
    ∀ (inst : List jsonrpc.GoField) (f : jsonrpc.GoField) (rule : jsonrpc.VRule)
      (rest : List (jsonrpc.GoField × jsonrpc.VRule)),
      jsonrpc.violatedRules inst = (f, rule) :: rest →
      rest ≠ [] →
      jsonrpc.Validate inst = some [jsonrpc.mkVErr f rule] ∧
      jsonrpc.createParamsError (.validationErrs [jsonrpc.mkVErr f rule]) =
        ⟨-32602, "Parameter validation failed", some (jsonrpc.mkVErr f rule).message⟩ ∧
      (∀ (r : jsonrpc.Router) (req : jsonrpc.Request) (mi : jsonrpc.MethodInfo)
          (schema : jsonrpc.Json → Except String (List jsonrpc.GoField)) (p : jsonrpc.Json),
        req.id ≠ none → req.jsonrpc = "2.0" → req.method ≠ "" →
        r.methods req.method = some mi → mi.validateParams = true →
        mi.paramsSchema = some schema → req.params = some p → schema p = .ok inst →
        jsonrpc.Route r req =
          some (jsonrpc.NewErrorResponse
            ⟨-32602, "Parameter validation failed", some (jsonrpc.mkVErr f rule).message⟩
            req.id)) := by
  intro inst f rule rest hvio hrest
  obtain ⟨es, hg⟩ := jsonrpc.goStructErrors_head f rule rest inst hvio
  have hval : jsonrpc.Validate inst = some [jsonrpc.mkVErr f rule] := by
    rw [jsonrpc.Validate, hg]
  refine ⟨hval, rfl, ?_⟩
  intro r req mi schema p hid hv hm hlook hvp hps hp hschema
  have hpc : jsonrpc.paramsCheck mi req.params =
      some (.validationErrs [jsonrpc.mkVErr f rule]) := by
    rw [jsonrpc.paramsCheck, hvp, hps, hp]
    simp only [jsonrpc.validateParams, hschema, hval]
    rfl
  rw [jsonrpc.Route, jsonrpc.validateRequest_ok req hv hm]
  dsimp only
  rw [if_neg (by simp [Option.isNone_iff_eq_none, hid])]
  rw [hlook]
  dsimp only
  rw [hpc]
  rfl

/-- Witness for claim C8 at a value violating two rules: exactly the first
violation is reported. -/
theorem C8_witness :
    jsonrpc.violatedRules instC8 =
      (⟨"a", .str "", [.required]⟩, jsonrpc.VRule.required) ::
        [(⟨"b", .str "", [.required]⟩, jsonrpc.VRule.required)] ∧
    ([(⟨"b", jsonrpc.GoValue.str "", [jsonrpc.VRule.required]⟩, jsonrpc.VRule.required)] ≠
      ([] : List (jsonrpc.GoField × jsonrpc.VRule))) ∧
    jsonrpc.Validate instC8 =
      some [jsonrpc.mkVErr ⟨"a", .str "", [.required]⟩ jsonrpc.VRule.required] :=
  ⟨rfl, by simp,
    (C8_fast_fail instC8 ⟨"a", .str "", [.required]⟩ .required
      [(⟨"b", .str "", [.required]⟩, .required)] rfl (by simp)).1⟩

/-- Claim C9: `RegisterMethod` errors exactly when the name is empty, the
handler is nil, or the name is already registered, and `UnregisterMethod`
errors exactly when the name is not registered; every error leaves the
method registry unchanged, so in particular a duplicate registration does
not alter the existing entry. -/
theorem C9_registry_atomicity :
    (∀ (r : jsonrpc.Router) (name : String) (handler : Option jsonrpc.HandlerFn)
        (info : Option jsonrpc.MethodInfo),
      (isErr (jsonrpc.RegisterMethod r name handler info).1 = true ↔
        name = "" ∨ handler = none ∨ (r.methods name).isSome = true) ∧
      (isErr (jsonrpc.RegisterMethod r name handler info).1 = true →
        (jsonrpc.RegisterMethod r name handler info).2 = r)) ∧
    (∀ (r : jsonrpc.Router) (name : String),
      (isErr (jsonrpc.UnregisterMethod r name).1 = true ↔ r.methods name = none) ∧
      (isErr (jsonrpc.UnregisterMethod r name).1 = true →
        (jsonrpc.UnregisterMethod r name).2 = r)) := by
  constructor
  · intro r name handler info
    rw [jsonrpc.RegisterMethod]
    by_cases h1 : name = ""
    · rw [if_pos h1]
      exact ⟨by simp [isErr, h1], fun _ => rfl⟩
    · rw [if_neg h1]
      by_cases h2 : handler.isNone = true
      · rw [if_pos h2]
        exact ⟨by simp [isErr, Option.isNone_iff_eq_none.mp h2], fun _ => rfl⟩
      · rw [if_neg h2]
        rw [if_neg (by rw [jsonrpc.validateVar_name_ok name h1]; simp)]
        by_cases h3 : (r.methods name).isSome = true
        · rw [if_pos h3]
          exact ⟨by simp [isErr, h3], fun _ => rfl⟩
        · rw [if_neg h3]
          constructor
          · simp only [isErr]
            constructor
            · intro hfalse
              exact absurd hfalse (by simp)
            · intro hor
              rcases hor with h | h | h
              · exact absurd h h1
              · exact absurd (by simp [h] : handler.isNone = true) h2
              · exact absurd h h3
          · intro hfalse
            exact absurd hfalse (by simp [isErr])
  · intro r name
    rw [jsonrpc.UnregisterMethod]
    by_cases h : (r.methods name).isNone = true
    · rw [if_pos h]
      exact ⟨by simp [isErr, Option.isNone_iff_eq_none.mp h], fun _ => rfl⟩
    · rw [if_neg h]
      constructor
      · simp only [isErr]
        constructor
        · intro hfalse
          exact absurd hfalse (by simp)
        · intro hnone
          exact absurd (by simp [hnone] : (r.methods name).isNone = true) h
      · intro hfalse
        exact absurd hfalse (by simp [isErr])

/-- Witness for claim C9: registering "m" twice on the empty router — the
second registration errors and leaves the registry unchanged, and
unregistering an unknown name errors and leaves the registry unchanged. -/
theorem C9_witness :
    (isErr (jsonrpc.RegisterMethod
        (jsonrpc.RegisterMethod jsonrpc.emptyRouter "m" (some (fun _ => .ok none)) none).2
        "m" (some (fun _ => .ok none)) none).1 = true ∧
      (jsonrpc.RegisterMethod
        (jsonrpc.RegisterMethod jsonrpc.emptyRouter "m" (some (fun _ => .ok none)) none).2
        "m" (some (fun _ => .ok none)) none).2 =
        (jsonrpc.RegisterMethod jsonrpc.emptyRouter "m" (some (fun _ => .ok none)) none).2) ∧
    (isErr (jsonrpc.UnregisterMethod jsonrpc.emptyRouter "nope").1 = true ∧
      (jsonrpc.UnregisterMethod jsonrpc.emptyRouter "nope").2 = jsonrpc.emptyRouter) := by
  constructor
  · constructor
    · exact (C9_registry_atomicity.1
        (jsonrpc.RegisterMethod jsonrpc.emptyRouter "m" (some (fun _ => .ok none)) none).2
        "m" (some (fun _ => .ok none)) none).1.mpr (Or.inr (Or.inr rfl))
    · exact (C9_registry_atomicity.1
        (jsonrpc.RegisterMethod jsonrpc.emptyRouter "m" (some (fun _ => .ok none)) none).2
        "m" (some (fun _ => .ok none)) none).2
        ((C9_registry_atomicity.1 _ "m" _ none).1.mpr (Or.inr (Or.inr rfl)))
  · constructor
    · exact (C9_registry_atomicity.2 jsonrpc.emptyRouter "nope").1.mpr rfl
    · exact (C9_registry_atomicity.2 jsonrpc.emptyRouter "nope").2
        ((C9_registry_atomicity.2 jsonrpc.emptyRouter "nope").1.mpr rfl)

namespace websocket

lemma mem_registersOf {c : HClient} :
    ∀ {ops : List HubOp}, HubOp.register c ∈ ops → c ∈ registersOf ops := by
  intro ops
  induction ops with
  | nil => intro h; exact absurd h (List.not_mem_nil _)
  | cons op rest ih =>
    intro h
    rcases List.mem_cons.mp h with h1 | h2
    · rw [← h1, registersOf]
      exact List.mem_cons_self _ _
    · cases op with
      | register c₀ =>
        rw [registersOf]
        exact List.mem_cons_of_mem _ (ih h2)
      | unregister c₀ =>
        rw [registersOf]
        exact ih h2

lemma register_step {R : List HClient}
    (hinj : ∀ a ∈ R, ∀ b ∈ R, a.code = b.code → a = b)
    {st : HubState} {c : HClient}
    (hsub : ∀ x ∈ st.clients, x ∈ R) (hcR : c ∈ R)
    (hnd : st.clients.Nodup) (hcons : HubConsistent st) :
    HubConsistent (registerClient st c) ∧
      (∀ x ∈ (registerClient st c).clients, x ∈ R) ∧
      (registerClient st c).clients.Nodup := by
  have hclients : ∀ x ∈ (registerClient st c).clients, x = c ∨ x ∈ st.clients := by
    intro x hx
    rw [registerClient] at hx
    dsimp only at hx
    by_cases hmem : c ∈ st.clients
    · rw [if_pos hmem] at hx
      exact Or.inr hx
    · rw [if_neg hmem] at hx
      exact List.mem_cons.mp hx
  have hclients' : ∀ x, (x = c ∨ x ∈ st.clients) → x ∈ (registerClient st c).clients := by
    intro x hx
    rw [registerClient]
    dsimp only
    by_cases hmem : c ∈ st.clients
    · rw [if_pos hmem]
      rcases hx with h | h
      · rw [h]; exact hmem
      · exact h
    · rw [if_neg hmem]
      rcases hx with h | h
      · rw [h]; exact List.mem_cons_self _ _
      · exact List.mem_cons_of_mem _ h
  refine ⟨⟨?_, ?_⟩, ?_, ?_⟩
  · intro s x hs
    rw [registerClient] at hs
    dsimp only at hs
    by_cases hsc : s = c.code
    · rw [if_pos hsc] at hs
      have hx : x = c := (Option.some.inj hs).symm
      subst hx
      exact ⟨hclients' x (Or.inl rfl), hsc.symm⟩
    · rw [if_neg hsc] at hs
      obtain ⟨hm, hcode⟩ := hcons.1 s x hs
      exact ⟨hclients' x (Or.inr hm), hcode⟩
  · intro x hx
    rw [registerClient]
    dsimp only
    rcases hclients x hx with h | h
    · subst h
      rw [if_pos rfl]
    · by_cases hsc : x.code = c.code
      · have hxc : x = c := hinj x (hsub x h) c hcR hsc
        subst hxc
        rw [if_pos hsc]
      · rw [if_neg hsc]
        exact hcons.2 x h
  · intro x hx
    rcases hclients x hx with h | h
    · rw [h]; exact hcR
    · exact hsub x h
  · rw [registerClient]
    dsimp only
    by_cases hmem : c ∈ st.clients
    · rw [if_pos hmem]; exact hnd
    · rw [if_neg hmem]
      exact List.Nodup.cons hmem hnd

lemma unregister_step {R : List HClient}
    (hinj : ∀ a ∈ R, ∀ b ∈ R, a.code = b.code → a = b)
    {st : HubState} {c : HClient}
    (hsub : ∀ x ∈ st.clients, x ∈ R)
    (hnd : st.clients.Nodup) (hcons : HubConsistent st) :
    HubConsistent (unregisterClient st c) ∧
      (∀ x ∈ (unregisterClient st c).clients, x ∈ R) ∧
      (unregisterClient st c).clients.Nodup := by
  rw [unregisterClient]
  by_cases hmem : c ∈ st.clients
  · rw [if_pos hmem]
    refine ⟨⟨?_, ?_⟩, ?_, ?_⟩
    · intro s x hs
      dsimp only at hs
      by_cases hsc : s = c.code
      · rw [if_pos hsc] at hs
        exact Option.noConfusion hs
      · rw [if_neg hsc] at hs
        obtain ⟨hm, hcode⟩ := hcons.1 s x hs
        have hne : x ≠ c := by
          intro he
          subst he
          exact hsc hcode.symm
        refine ⟨?_, hcode⟩
        dsimp only
        exact (List.Nodup.mem_erase_iff hnd).mpr ⟨hne, hm⟩
    · intro x hx
      dsimp only at hx ⊢
      have hx' := List.mem_of_mem_erase hx
      have hne : x ≠ c := ((List.Nodup.mem_erase_iff hnd).mp hx).1
      by_cases hsc : x.code = c.code
      · exact absurd (hinj x (hsub x hx') c (hsub c hmem) hsc) hne
      · rw [if_neg hsc]
        exact hcons.2 x hx'
    · intro x hx
      exact hsub x (List.mem_of_mem_erase hx)
    · exact List.Nodup.erase _ hnd
  · rw [if_neg hmem]
    exact ⟨hcons, hsub, hnd⟩

lemma runHub_consistent_aux (R : List HClient)
    (hinj : ∀ a ∈ R, ∀ b ∈ R, a.code = b.code → a = b) :
    ∀ (ops : List HubOp) (st : HubState),
      (∀ c, HubOp.register c ∈ ops → c ∈ R) →
      (∀ c ∈ st.clients, c ∈ R) →
      st.clients.Nodup →
      HubConsistent st →
      HubConsistent (runHub st ops) ∧
        (∀ c ∈ (runHub st ops).clients, c ∈ R) ∧ (runHub st ops).clients.Nodup := by
  intro ops
  induction ops with
  | nil =>
    intro st _ hsub hnd hcons
    exact ⟨hcons, hsub, hnd⟩
  | cons op rest ih =>
    intro st hops hsub hnd hcons
    rw [runHub, List.foldl_cons]
    have hops' : ∀ c, HubOp.register c ∈ rest → c ∈ R :=
      fun c hc => hops c (List.mem_cons_of_mem _ hc)
    cases op with
    | register c =>
      obtain ⟨h1, h2, h3⟩ :=
        register_step hinj hsub (hops c (List.mem_cons_self _ _)) hnd hcons
      exact ih (registerClient st c) hops' h2 h3 h1
    | unregister c =>
      obtain ⟨h1, h2, h3⟩ := unregister_step hinj hsub hnd hcons
      exact ih (unregisterClient st c) hops' h2 h3 h1

end websocket

/-- Claim C1 as stated is false on the code: register client 0 under code
"a", register client 1 under the same code (superseding it in the index),
then unregister client 1 — `unregisterClient` deletes the index entry for
the client's code unconditionally, leaving client 0 in the clients set with
no index entry, so the index keys no longer equal the clients' codes. -/
theorem C1_counterexample :
    (⟨0, "a"⟩ : websocket.HClient) ∈
      (websocket.runHub (websocket.emptyHub (fun _ => ⟨256, [], false⟩))
        [.register ⟨0, "a"⟩, .register ⟨1, "a"⟩, .unregister ⟨1, "a"⟩]).clients ∧
    (websocket.runHub (websocket.emptyHub (fun _ => ⟨256, [], false⟩))
        [.register ⟨0, "a"⟩, .register ⟨1, "a"⟩, .unregister ⟨1, "a"⟩]).sessions "a" =
      none := by
  constructor
  · decide
  · decide

/-- Claim C1 (amended): a later registration under an already-present code
supersedes the earlier one in the session index while leaving the earlier
connection in the clients set; and provided no two distinct registered
clients share a session code, after any sequence of register and unregister
requests the two maps never diverge — every index entry is a member of the
clients set carrying its key as code, and every client in the clients set is
indexed under its code.  (With duplicate codes, unregistering either
duplicate deletes the shared index entry and the maps diverge.) -/
theorem C1_hub_consistency :
    (∀ (st : websocket.HubState) (c : websocket.HClient),
      (websocket.registerClient st c).sessions c.code = some c ∧
      ∀ c' ∈ st.clients, c' ∈ (websocket.registerClient st c).clients) ∧
    (∀ (ops : List websocket.HubOp) (chans : Nat → websocket.GoChan),
      (websocket.registersOf ops).Pairwise (fun a b => a.code = b.code → a = b) →
      websocket.HubConsistent (websocket.runHub (websocket.emptyHub chans) ops)) := by
  constructor
  · intro st c
    constructor
    · rw [websocket.registerClient]
      dsimp only
      rw [if_pos rfl]
    · intro c' hc'
      rw [websocket.registerClient]
      dsimp only
      by_cases hmem : c ∈ st.clients
      · rw [if_pos hmem]
        exact hc'
      · rw [if_neg hmem]
        exact List.mem_cons_of_mem _ hc'
  · intro ops chans hp
    have hsymm : ∀ {a b : websocket.HClient},
        (a.code = b.code → a = b) → (b.code = a.code → b = a) :=
      fun hab h => (hab h.symm).symm
    have hinj : ∀ a ∈ websocket.registersOf ops, ∀ b ∈ websocket.registersOf ops,
        a.code = b.code → a = b := by
      intro a ha b hb hcode
      by_cases hab : a = b
      · exact hab
      · exact List.Pairwise.forall (fun x y h => hsymm h) hp ha hb hab hcode
    have h0 : websocket.HubConsistent (websocket.emptyHub chans) :=
      ⟨fun s c hs => Option.noConfusion hs, fun c hc => absurd hc (List.not_mem_nil c)⟩
    exact (websocket.runHub_consistent_aux (websocket.registersOf ops) hinj ops
      (websocket.emptyHub chans) (fun c hc => websocket.mem_registersOf hc)
      (fun c hc => absurd hc (List.not_mem_nil c)) List.nodup_nil h0).1

/-- Witness for the amended claim C1 at a concrete sequence with distinct
codes, plus the supersede property at a concrete registration. -/
theorem C1_witness :
    (websocket.registersOf
        [.register ⟨0, "a-b-1"⟩, .register ⟨1, "c-d-2"⟩, .unregister ⟨0, "a-b-1"⟩]).Pairwise
      (fun a b => a.code = b.code → a = b) ∧
    websocket.HubConsistent
      (websocket.runHub (websocket.emptyHub (fun _ => ⟨256, [], false⟩))
        [.register ⟨0, "a-b-1"⟩, .register ⟨1, "c-d-2"⟩, .unregister ⟨0, "a-b-1"⟩]) ∧
    (websocket.registerClient (websocket.emptyHub (fun _ => ⟨256, [], false⟩))
        ⟨5, "x-y-1"⟩).sessions "x-y-1" = some ⟨5, "x-y-1"⟩ := by
  refine ⟨?_, ?_, ?_⟩
  · decide
  · exact C1_hub_consistency.2
      [.register ⟨0, "a-b-1"⟩, .register ⟨1, "c-d-2"⟩, .unregister ⟨0, "a-b-1"⟩]
      (fun _ => ⟨256, [], false⟩) (by decide)
  · exact (C1_hub_consistency.1 (websocket.emptyHub (fun _ => ⟨256, [], false⟩))
      ⟨5, "x-y-1"⟩).1

/-- Claim C3 is right and the code is wrong: evaluating `unregisterClient`
at a registered client whose send queue holds one buffered message, the
guarded close `select {case <-client.send: default: close(client.send)}`
takes the ready receive (consuming the buffered message) instead of the
default, even though the comment on that case says the channel is already
closed — so the client is removed from both maps but its channel is left
open, not closed exactly once. -/
theorem C3_unclosed_send_channel :
    (websocket.hubC3.chans 0).buf = ["queued-message"] ∧
    (websocket.hubC3.chans 0).closed = false ∧
    (websocket.unregisterClient websocket.hubC3 ⟨0, "a-b-1"⟩).chans 0 =
      ⟨256, [], false⟩ ∧
    (⟨0, "a-b-1"⟩ : websocket.HClient) ∉
      (websocket.unregisterClient websocket.hubC3 ⟨0, "a-b-1"⟩).clients := by
  refine ⟨rfl, rfl, ?_, ?_⟩
  · decide
  · decide

namespace websocket

lemma broadcastLoop_pending_mono (m : String) :
    ∀ (cs : List HClient) (st : HubState) (pending : List HClient)
      (st' : HubState) (pending' : List HClient),
      broadcastLoop m cs st pending = some (st', pending') →
      ∀ q ∈ pending, q ∈ pending' := by
  intro cs
  induction cs with
  | nil =>
    intro st pending st' pending' h q hq
    rw [broadcastLoop] at h
    obtain ⟨-, h2⟩ := Prod.mk.injEq .. ▸ Option.some.inj h
    rw [← h2]
    exact hq
  | cons c rest ih =>
    intro st pending st' pending' h q hq
    rw [broadcastLoop] at h
    rcases htry : trySend (st.chans c.id) m with ⟨o, ch⟩
    rw [htry] at h
    cases o with
    | sent => exact ih _ _ _ _ h q hq
    | dropped => exact ih _ _ _ _ h q (List.mem_append_left _ hq)
    | crashed => exact Option.noConfusion h

lemma broadcastLoop_closed_mono (m : String) (j : Nat) :
    ∀ (cs : List HClient) (st : HubState) (pending : List HClient)
      (st' : HubState) (pending' : List HClient),
      broadcastLoop m cs st pending = some (st', pending') →
      (st.chans j).closed = true → (st'.chans j).closed = true := by
  intro cs
  induction cs with
  | nil =>
    intro st pending st' pending' h hc
    rw [broadcastLoop] at h
    obtain ⟨h1, -⟩ := Prod.mk.injEq .. ▸ Option.some.inj h
    rw [← h1]
    exact hc
  | cons c rest ih =>
    intro st pending st' pending' h hc
    rw [broadcastLoop] at h
    rcases htry : trySend (st.chans c.id) m with ⟨o, ch⟩
    rw [htry] at h
    by_cases hji : c.id = j
    · have hcl : trySend (st.chans c.id) m = (.crashed, st.chans c.id) := by
        rw [trySend, if_pos (by rw [hji]; exact hc)]
      rw [hcl] at htry
      injection htry with ho hch
      subst ho
      exact Option.noConfusion h
    · have hne : ¬ (j = c.id) := fun hh => hji hh.symm
      cases o with
      | sent =>
        refine ih _ _ _ _ h ?_
        dsimp only
        rw [if_neg hne]
        exact hc
      | dropped =>
        refine ih _ _ _ _ h ?_
        dsimp only
        rw [if_neg hne]
        exact hc
      | crashed => exact Option.noConfusion h

lemma broadcastLoop_evicts (m : String) :
    ∀ (cs : List HClient) (st : HubState) (pending : List HClient)
      (st' : HubState) (pending' : List HClient),
      broadcastLoop m cs st pending = some (st', pending') →
      (∀ a ∈ cs, ∀ b ∈ cs, a.id = b.id → a = b) →
      ∀ c ∈ cs, (st.chans c.id).closed = false →
        (st.chans c.id).cap ≤ (st.chans c.id).buf.length →
        c ∈ pending' ∧ (st'.chans c.id).closed = true := by
  intro cs
  induction cs with
  | nil =>
    intro st pending st' pending' h hdist c hc
    exact absurd hc (List.not_mem_nil c)
  | cons x rest ih =>
    intro st pending st' pending' h hdist c hc hopen hfull
    rw [broadcastLoop] at h
    rcases htry : trySend (st.chans x.id) m with ⟨o, ch⟩
    rw [htry] at h
    by_cases hcx : c = x
    · subst hcx
      have hdropped : trySend (st.chans c.id) m = (.dropped, st.chans c.id) := by
        rw [trySend, if_neg (by simp [hopen]), if_neg (by omega)]
      rw [hdropped] at htry
      injection htry with ho hch
      subst ho
      constructor
      · exact broadcastLoop_pending_mono m _ _ _ _ _ h c
          (List.mem_append_right _ (List.mem_cons_self _ _))
      · refine broadcastLoop_closed_mono m c.id _ _ _ _ _ h ?_
        dsimp only
        rw [if_pos rfl]
        rfl
    · have hxid : x.id ≠ c.id := by
        intro hid
        exact hcx (hdist x (List.mem_cons_self _ _) c hc hid).symm
      have hcrest : c ∈ rest := by
        rcases List.mem_cons.mp hc with hcc | hcc
        · exact absurd hcc hcx
        · exact hcc
      have hdist' : ∀ a ∈ rest, ∀ b ∈ rest, a.id = b.id → a = b :=
        fun a ha b hb => hdist a (List.mem_cons_of_mem _ ha) b (List.mem_cons_of_mem _ hb)
      have hne : ¬ (c.id = x.id) := fun hh => hxid hh.symm
      cases o with
      | sent =>
        refine ih _ _ _ _ h hdist' c hcrest ?_ ?_
        · dsimp only
          rw [if_neg hne]
          exact hopen
        · dsimp only
          rw [if_neg hne]
          exact hfull
      | dropped =>
        refine ih _ _ _ _ h hdist' c hcrest ?_ ?_
        · dsimp only
          rw [if_neg hne]
          exact hopen
        · dsimp only
          rw [if_neg hne]
          exact hfull
      | crashed => exact Option.noConfusion h

end websocket

/-- Claim C4 as stated is false on the code: `Client.Send` on a client whose
send queue (capacity 1, one buffered message) is full merely drops the
message — the state, including both hub registries, is unchanged and the
client remains registered — instead of evicting the connection. -/
theorem C4_counterexample :
    websocket.clientSend websocket.stFull websocket.cFull "m1" =
      (.dropped, websocket.stFull) ∧
    (websocket.stFull.chans websocket.cFull.id).cap ≤
      (websocket.stFull.chans websocket.cFull.id).buf.length ∧
    websocket.cFull ∈ websocket.stFull.clients ∧
    websocket.stFull.sessions "a-b-1" = some websocket.cFull := by
  refine ⟨rfl, ?_, ?_, rfl⟩
  · decide
  · decide

/-- Claim C4 (amended): every outbound enqueue is non-blocking against the
fixed-capacity queue, but the eviction policy covers only the hub-side
paths: `SendToSession` on a full open queue closes it and submits the
client for unregistration, which removes it from both registries, and
`broadcastMessage` does the same for every full open client in its
snapshot; the direct send paths — `Client.Send`, and the identically-shaped
response enqueues in `processJSONRPCMessage` and `sendJSONRPCError` — drop
the message on a full queue while leaving the client registered. -/
theorem C4_backpressure :
    (∀ (st : websocket.HubState) (code m : String) (c : websocket.HClient),
      st.sessions code = some c →
      (st.chans c.id).closed = false →
      (st.chans c.id).cap ≤ (st.chans c.id).buf.length →
      st.clients.Nodup → c ∈ st.clients →
      ∃ st', websocket.SendToSession st code m = .evicted st' c ∧
        (st'.chans c.id).closed = true ∧
        c ∉ (websocket.unregisterClient st' c).clients ∧
        (websocket.unregisterClient st' c).sessions c.code = none) ∧
    (∀ (st : websocket.HubState) (m : String) (st' : websocket.HubState)
        (pending : List websocket.HClient),
      websocket.broadcastMessage st m = some (st', pending) →
      (∀ a ∈ st.clients, ∀ b ∈ st.clients, a.id = b.id → a = b) →
      ∀ c ∈ st.clients, (st.chans c.id).closed = false →
        (st.chans c.id).cap ≤ (st.chans c.id).buf.length →
        c ∈ pending ∧ (st'.chans c.id).closed = true) ∧
    (∀ (st : websocket.HubState) (c : websocket.HClient) (m : String),
      (st.chans c.id).closed = false →
      (st.chans c.id).cap ≤ (st.chans c.id).buf.length →
      websocket.clientSend st c m = (.dropped, st)) := by
  refine ⟨?_, ?_, ?_⟩
  · intro st code m c hsess hopen hfull hnd hmem
    have hdropped : websocket.trySend (st.chans c.id) m = (.dropped, st.chans c.id) := by
      rw [websocket.trySend, if_neg (by simp [hopen]), if_neg (by omega)]
    refine ⟨{ st with chans := fun i =>
        if i = c.id then websocket.closeChan (st.chans i) else st.chans i },
      ?_, ?_, ?_, ?_⟩
    · rw [websocket.SendToSession, hsess]
      dsimp only
      rw [hdropped]
    · dsimp only
      rw [if_pos rfl]
      rfl
    · rw [websocket.unregisterClient]
      dsimp only
      rw [if_pos hmem]
      intro hmem'
      exact ((List.Nodup.mem_erase_iff hnd).mp hmem').1 rfl
    · rw [websocket.unregisterClient]
      dsimp only
      rw [if_pos hmem]
      dsimp only
      rw [if_pos rfl]
  · intro st m st' pending h hdist c hc hopen hfull
    exact websocket.broadcastLoop_evicts m st.clients st [] st' pending h hdist c hc
      hopen hfull
  · intro st c m hopen hfull
    have hdropped : websocket.trySend (st.chans c.id) m = (.dropped, st.chans c.id) := by
      rw [websocket.trySend, if_neg (by simp [hopen]), if_neg (by omega)]
    rw [websocket.clientSend, hdropped]

/-- Witness for the amended claim C4 at the concrete full-queue hub:
`SendToSession` evicts the client and the queued unregistration removes it,
while `Client.Send` merely drops. -/
theorem C4_witness :
    websocket.stFull.sessions "a-b-1" = some websocket.cFull ∧
    (websocket.stFull.chans websocket.cFull.id).closed = false ∧
    (websocket.stFull.chans websocket.cFull.id).cap ≤
      (websocket.stFull.chans websocket.cFull.id).buf.length ∧
    websocket.stFull.clients.Nodup ∧
    websocket.cFull ∈ websocket.stFull.clients ∧
    (∃ st', websocket.SendToSession websocket.stFull "a-b-1" "m1" = .evicted st' websocket.cFull ∧
      (st'.chans websocket.cFull.id).closed = true ∧
      websocket.cFull ∉ (websocket.unregisterClient st' websocket.cFull).clients ∧
      (websocket.unregisterClient st' websocket.cFull).sessions websocket.cFull.code = none) ∧
    websocket.clientSend websocket.stFull websocket.cFull "m1" =
      (.dropped, websocket.stFull) := by
  refine ⟨rfl, rfl, by decide, by decide, by decide, ?_, ?_⟩
  · exact C4_backpressure.1 websocket.stFull "a-b-1" "m1" websocket.cFull rfl rfl
      (by decide) (by decide) (by decide)
  · exact C4_backpressure.2.2 websocket.stFull websocket.cFull "m1" rfl (by decide)

end FLE
